import Mathlib

/-!
Shallow embedding of the interview-coach orchestration engine
(src/interview_coach) and proofs about its specification claims.

Python floats are modelled as exact rationals plus the special values
nan, +inf and -inf; Python ints as Lean Int; Python strings as Lean
String (with helper functions on the underlying character lists).
-/

-- Batteries marks the rational-number field operations irreducible for
-- elaboration; the concrete evaluations below need them to unfold.
set_option allowUnsafeReducibility true in
attribute [semireducible] Rat.add Rat.sub Rat.mul Rat.inv

namespace InterviewCoach

/-- Python whitespace characters as matched by str.strip and the regex
class backslash-s (ASCII subset; the sources only ever produce ASCII or
Cyrillic text, and the Cyrillic letters are not whitespace). -/
def isPyWs (c : Char) : Bool :=
  c = ' ' || c = '\t' || c = '\n' || c = '\r' || c = '\x0b' || c = '\x0c'

/-- str.strip applied to a character list: drop whitespace at both ends. -/
def pyStripChars (cs : List Char) : List Char :=
  ((cs.dropWhile isPyWs).reverse.dropWhile isPyWs).reverse

/-- The right half of str.strip: drop whitespace at the end only. -/
def rstripWs (cs : List Char) : List Char :=
  (cs.reverse.dropWhile isPyWs).reverse

/-- str.strip on a Lean String. -/
def pyStrip (s : String) : String :=
  String.mk (pyStripChars s.data)

/-- Python truthiness of a string: non-empty strings are truthy. -/
def pyTruthy (s : String) : Bool := s ≠ ""

/-! ## Python float values (models.py helpers) -/

/-- A Python float: an exact rational, or one of the IEEE special values.
Finite floats are modelled exactly by rationals. -/
inductive PyFloat where
  | fq (q : ℚ)
  | fnan
  | finf
  | fninf
deriving DecidableEq, Repr

/-- A dynamically typed Python value as it can reach the model
validators: a number (int or float), a special float, a string, None, or
any other object that float() rejects with TypeError. -/
inductive PyVal where
  | num (q : ℚ)
  | nan
  | inf
  | ninf
  | str (s : String)
  | none
  | obj
deriving DecidableEq, Repr

/-- Numeric value of a run of decimal digit characters. -/
def digitsVal (cs : List Char) : Nat :=
  cs.foldl (fun acc c => 10 * acc + (c.toNat - '0'.toNat)) 0

/-- ASCII lowercasing of a character (enough for float() keywords). -/
def asciiLower (c : Char) : Char :=
  if 'A' ≤ c ∧ c ≤ 'Z' then Char.ofNat (c.toNat + 32) else c

/-- Parse an optional exponent suffix: sign then at least one digit. -/
def parseExpTail (cs : List Char) : Option Int :=
  let (sign, rest) :=
    match cs with
    | '+' :: r => ((1 : Int), r)
    | '-' :: r => ((-1 : Int), r)
    | r => ((1 : Int), r)
  let ds := rest.takeWhile Char.isDigit
  let r2 := rest.dropWhile Char.isDigit
  if ds = [] ∨ r2 ≠ [] then Option.none
  else Option.some (sign * Int.ofNat (digitsVal ds))

/-- Parse the unsigned decimal part of a Python float literal:
digits, an optional fractional part, an optional exponent.
At least one digit must appear in the mantissa. -/
def parseDecimal (cs : List Char) : Option ℚ :=
  let intDs := cs.takeWhile Char.isDigit
  let rest := cs.dropWhile Char.isDigit
  let withExp (base : ℚ) (tail : List Char) : Option ℚ :=
    match tail with
    | [] => Option.some base
    | 'e' :: r => (parseExpTail r).map (fun e => base * (10 : ℚ) ^ e)
    | _ => Option.none
  match rest with
  | '.' :: r2 =>
      let fracDs := r2.takeWhile Char.isDigit
      let r3 := r2.dropWhile Char.isDigit
      if intDs = [] ∧ fracDs = [] then Option.none
      else
        withExp
          ((digitsVal intDs : ℚ) + (digitsVal fracDs : ℚ) / (10 : ℚ) ^ fracDs.length)
          r3
  | _ =>
      if intDs = [] then Option.none
      else withExp (digitsVal intDs : ℚ) rest

/-- Python float(str): strip whitespace, optional sign, then either one
of the keywords inf / infinity / nan (case-insensitive) or a decimal
literal. Returns Option.none where Python raises ValueError.
(Digit-group underscores are not modelled; no input in this development
uses them.) -/
def parsePyFloat (s : String) : Option PyFloat :=
  let cs := (pyStripChars s.data).map asciiLower
  let (neg, body) :=
    match cs with
    | '+' :: r => (false, r)
    | '-' :: r => (true, r)
    | r => (false, r)
  if body = "inf".data ∨ body = "infinity".data then
    Option.some (if neg then PyFloat.fninf else PyFloat.finf)
  else if body = "nan".data then
    Option.some PyFloat.fnan
  else
    (parseDecimal body).map (fun q => PyFloat.fq (if neg then -q else q))

/-- Python float(value) on a dynamic value: numbers and float specials
convert, strings are parsed, None and other objects raise
(TypeError), modelled as Option.none. -/
def pyFloatOf (v : PyVal) : Option PyFloat :=
  match v with
  | PyVal.num q => Option.some (PyFloat.fq q)
  | PyVal.nan => Option.some PyFloat.fnan
  | PyVal.inf => Option.some PyFloat.finf
  | PyVal.ninf => Option.some PyFloat.fninf
  | PyVal.str s => parsePyFloat s
  | PyVal.none => Option.none
  | PyVal.obj => Option.none

/-- models._coerce_float: float(value) with a default on
TypeError/ValueError. -/
def coerce_float (v : PyVal) (default : ℚ) : PyFloat :=
  match pyFloatOf v with
  | Option.some f => f
  | Option.none => PyFloat.fq default

/-- Comparison numeric < bound, with IEEE semantics: nan compares false,
-inf is below everything, +inf above. -/
def pfLt (f : PyFloat) (bound : ℚ) : Bool :=
  match f with
  | PyFloat.fq q => q < bound
  | PyFloat.fnan => false
  | PyFloat.finf => false
  | PyFloat.fninf => true

/-- Comparison numeric > bound with IEEE semantics. -/
def pfGt (f : PyFloat) (bound : ℚ) : Bool :=
  match f with
  | PyFloat.fq q => bound < q
  | PyFloat.fnan => false
  | PyFloat.finf => true
  | PyFloat.fninf => false

/-- models._clamp: coerce to float with default low, then clamp into
[low, high]. A NaN input passes through both comparisons unchanged. -/
def clamp (v : PyVal) (low high : ℚ) : PyFloat :=
  let numeric := coerce_float v low
  if pfLt numeric low then PyFloat.fq low
  else if pfGt numeric high then PyFloat.fq high
  else numeric

/-- The pydantic ge/le constraint applied after the clamping
before-validator: a finite value inside the range is accepted, anything
else (in particular NaN, for which both ge and le compare false) is a
validation error. -/
def fieldRangeCheck (f : PyFloat) (low high : ℚ) : Except String ℚ :=
  match f with
  | PyFloat.fq q =>
      if low ≤ q ∧ q ≤ high then Except.ok q
      else Except.error "value out of field range"
  | _ => Except.error "value out of field range"

/-- ObserverReport.clamp_answer_quality followed by the field constraint
ge=0.0, le=5.0. -/
def validate_answer_quality (v : PyVal) : Except String ℚ :=
  fieldRangeCheck (clamp v 0 5) 0 5

/-- ObserverReport.clamp_confidence followed by the field constraint
ge=0.0, le=1.0. -/
def validate_confidence (v : PyVal) : Except String ℚ :=
  fieldRangeCheck (clamp v 0 1) 0 1

/-! ## PlannedTopics validation (models.py) -/

/-- Loop body of PlannedTopics.validate_topics: strip every entry and
reject the first entry that is empty after stripping. -/
def cleanTopics : List String → Except String (List String)
  | [] => Except.ok []
  | item :: rest =>
      let text := pyStrip item
      if text = "" then Except.error "topics must be non-empty strings"
      else (cleanTopics rest).map (fun tail => text :: tail)

/-- PlannedTopics.validate_topics: strip every entry, reject any entry
that is empty after stripping, then require exactly 10 entries. -/
def validate_topics (value : List String) : Except String (List String) :=
  match cleanTopics value with
  | Except.error e => Except.error e
  | Except.ok cleaned =>
      if cleaned.length ≠ 10 then Except.error "topics must contain exactly 10 items"
      else Except.ok cleaned

/-! ## Domain model (models.py) -/

/-- models.NextAction. -/
inductive NextAction where
  | ASK_DEEPER
  | ASK_EASIER
  | CHANGE_TOPIC
  | HANDLE_OFFTOPIC
  | HANDLE_HALLUCINATION
  | HANDLE_ROLE_REVERSAL
  | WRAP_UP
deriving DecidableEq, Repr

/-- models.ExpertRole. -/
inductive ExpertRole where
  | tech_lead
  | team_lead
  | qa
  | designer
  | analyst
deriving DecidableEq, Repr

/-- models.ObserverFlags. -/
structure ObserverFlags where
  off_topic : Bool := false
  hallucination : Bool := false
  contradiction : Bool := false
  role_reversal : Bool := false
deriving DecidableEq, Repr

/-- models.ObserverReport with already-validated numeric fields. -/
structure ObserverReport where
  detected_topic : String
  answer_quality : ℚ
  confidence : ℚ
  flags : ObserverFlags
  recommended_next_action : NextAction
  recommended_question_style : String
  fact_check_notes : Option String := Option.none
  skills_delta : Option (List (String × ℚ)) := Option.none
deriving DecidableEq, Repr

/-- models.TurnLog with already-validated fields (difficulty values, when
present, have passed the 1..5 range validator). -/
structure TurnLog where
  turn_id : Int
  agent_visible_message : String
  user_message : String
  internal_thoughts : String
  topic : Option String := Option.none
  difficulty_before : Option Int := Option.none
  difficulty_after : Option Int := Option.none
  flags : Option ObserverFlags := Option.none
  skills_delta : Option (List (String × ℚ)) := Option.none
deriving DecidableEq, Repr

/-! ## Difficulty engine (nodes/difficulty.py) -/

/-- Partial state update emitted by the difficulty node; a missing key is
Option.none. -/
structure DifficultyUpdate where
  difficulty : Option String := Option.none
  difficulty_reason : Option String := Option.none
deriving DecidableEq, Repr

/-- The suppression test in run_difficulty: role_reversal, off_topic or
hallucination set. -/
def suppressed (flags : ObserverFlags) : Bool :=
  flags.role_reversal || flags.off_topic || flags.hallucination

/-- ASCII uppercasing of a character (str.upper on the tier strings). -/
def asciiUpper (c : Char) : Char :=
  if 'a' ≤ c ∧ c ≤ 'z' then Char.ofNat (c.toNat - 32) else c

/-- str.upper on a Lean String (ASCII; tier names are ASCII). -/
def pyUpper (s : String) : String :=
  String.mk (s.data.map asciiUpper)

/-- The ordered tier set of run_difficulty. -/
def tierOrder : List String := ["EASY", "MEDIUM", "HARD"]

/-- Membership test plus order.index over the fixed tier tuple:
the position of a tier string in tierOrder, none when absent. -/
def tierIdx : String → Option Nat
  | "EASY" => Option.some 0
  | "MEDIUM" => Option.some 1
  | "HARD" => Option.some 2
  | _ => Option.none

/-- Two-decimal fixed formatting of an exact rational, used for the
reason strings (Python formats the float with .2f; on the values
produced here the two renderings agree). -/
def formatRat2 (q : ℚ) : String :=
  let scaled : Int := ⌊q * 100 + 1 / 2⌋
  let mag : Nat := scaled.natAbs
  let intPart := mag / 100
  let fracPart := mag % 100
  let fracStr := (if fracPart < 10 then "0" else "") ++ toString fracPart
  (if scaled < 0 then "-" else "") ++ toString intPart ++ "." ++ fracStr

/-- The body of run_difficulty once the report passed the flag checks
and the tier string has been normalized: skip on a blank or unknown
tier, otherwise promote on quality at least 4.0, demote on quality at
most 2.0, clamping at the ends of tierOrder; emit the difficulty key
only when the tier changed. -/
def difficultyStep (report : ObserverReport) (difficulty : String) : DifficultyUpdate :=
  if difficulty = "" then {}
  else
    match tierIdx difficulty with
    | Option.none => {}
    | Option.some idx =>
        let updated :=
          if (4 : ℚ) ≤ report.answer_quality then
            tierOrder.getD (min (tierOrder.length - 1) (idx + 1)) difficulty
          else if report.answer_quality ≤ (2 : ℚ) then
            tierOrder.getD (idx - 1) difficulty
          else difficulty
        let reason :=
          if (4 : ℚ) ≤ report.answer_quality then
            "increase (answer_quality=" ++ formatRat2 report.answer_quality ++ ")"
          else if report.answer_quality ≤ (2 : ℚ) then
            "decrease (answer_quality=" ++ formatRat2 report.answer_quality ++ ")"
          else ""
        if updated = difficulty then
          { difficulty_reason := Option.some "" }
        else
          { difficulty := Option.some updated, difficulty_reason := Option.some reason }

/-- nodes/difficulty.run_difficulty: skip on a missing report or on any
suppression flag, then normalize the tier string and apply the tier
transition of difficultyStep. -/
def run_difficulty (reportOpt : Option ObserverReport) (difficultyRaw : String) :
    DifficultyUpdate :=
  match reportOpt with
  | Option.none => {}
  | Option.some report =>
      if suppressed report.flags then {}
      else difficultyStep report (pyUpper (pyStrip difficultyRaw))

/-! ## Question normalization and similarity (nodes/interviewer.py) -/

/-- str.lower for the alphabets the normalizer keeps: ASCII letters and
the Russian alphabet (А..Я and Ё); every other character is left as is,
which is equivalent for normalize_text because such characters are
replaced by spaces either way. -/
def pyLowerChar (c : Char) : Char :=
  if 'A' ≤ c ∧ c ≤ 'Z' then Char.ofNat (c.toNat + 32)
  else if 'А' ≤ c ∧ c ≤ 'Я' then Char.ofNat (c.toNat + 32)
  else if c = 'Ё' then 'ё'
  else c

/-- Membership in the character class kept by normalize_text:
lowercase ASCII letters, digits, Russian lowercase letters, whitespace. -/
def inNormClass (c : Char) : Bool :=
  ('a' ≤ c ∧ c ≤ 'z') || ('0' ≤ c ∧ c ≤ '9') ||
  ('а' ≤ c ∧ c ≤ 'я') || c = 'ё' || isPyWs c

/-- Collapse every whitespace run to one space, tracking whether the
previous character was whitespace. -/
def collapseWsGo : Bool → List Char → List Char
  | _, [] => []
  | prevWs, c :: rest =>
      if isPyWs c then
        if prevWs then collapseWsGo true rest
        else ' ' :: collapseWsGo true rest
      else c :: collapseWsGo false rest

/-- nodes/interviewer.normalize_text: lowercase, replace every character
outside the kept class by a space, collapse whitespace runs, strip. -/
def normalize_text (text : String) : String :=
  let lowered := text.data.map pyLowerChar
  let cleaned := lowered.map (fun c => if inNormClass c then c else ' ')
  String.mk (pyStripChars (collapseWsGo false cleaned))

/-- One DP row of difflib find_longest_match: entry j is the length of
the common suffix of the scanned prefix of a and the prefix of b ending
at j. -/
def fmRow (ai : Char) (b : List Char) (prev : List Nat) : List Nat :=
  List.zipWith (fun bj pj => if bj = ai then pj + 1 else 0) b (0 :: prev)

/-- Scan of difflib find_longest_match: walk a, updating the best block
(besti, bestj, bestsize) on a strictly larger match, exactly as the
Python loop does (i ascending, then j ascending). -/
def flmGo (b : List Char) : List Char → Nat → List Nat → Nat × Nat × Nat → Nat × Nat × Nat
  | [], _, _, best => best
  | ai :: arest, i, prev, best =>
      let row := fmRow ai b prev
      let best2 := row.enum.foldl
        (fun acc p =>
          if p.2 > acc.2.2 then (i + 1 - p.2, p.1 + 1 - p.2, p.2) else acc)
        best
      flmGo b arest (i + 1) row best2

/-- difflib SequenceMatcher.find_longest_match over whole sequences with
no junk (autojunk applies only to sequences of length at least 200,
longer than any normalized question here): the longest matching block,
earliest in a and then in b. -/
def find_longest_match (a b : List Char) : Nat × Nat × Nat :=
  flmGo b a 0 (List.replicate b.length 0) (0, 0, 0)

/-- Total size of difflib get_matching_blocks, computed by the same
divide and conquer around the longest match; fuel bounds the recursion
depth (any value at least min (length a) (length b) + 1 is enough). -/
def matchSum (fuel : Nat) (a b : List Char) : Nat :=
  match fuel with
  | 0 => 0
  | Nat.succ f =>
      let t := find_longest_match a b
      if t.2.2 = 0 then 0
      else
        t.2.2 + matchSum f (a.take t.1) (b.take t.2.1) +
          matchSum f (a.drop (t.1 + t.2.2)) (b.drop (t.2.1 + t.2.2))

/-- difflib SequenceMatcher.ratio: twice the matched size over the total
length (1 on two empty sequences), as an exact rational. -/
def sm_ratio (a b : String) : ℚ :=
  let la := a.data.length
  let lb := b.data.length
  if la + lb = 0 then 1
  else 2 * (matchSum (la + lb) a.data b.data : ℚ) / (la + lb : ℚ)

/-- nodes/interviewer.SIMILARITY_THRESHOLD (0.85). -/
def SIMILARITY_THRESHOLD : ℚ := 85 / 100

/-- nodes/interviewer.similarity of two already-normalized strings:
0 when either is empty, otherwise the SequenceMatcher ratio. -/
def similarity_ratio (left right : String) : ℚ :=
  if left = "" ∨ right = "" then 0 else sm_ratio left right

/-- nodes/interviewer.MAX_REWRITE_ATTEMPTS. -/
def MAX_REWRITE_ATTEMPTS : Nat := 2

/-- Substring containment, Python operator in on strings. -/
def containsSub (hay needle : List Char) : Bool :=
  match hay with
  | [] => needle.isEmpty
  | _ :: rest => needle.isPrefixOf hay || containsSub rest needle

/-- nodes/interviewer.is_duplicate: a candidate with non-empty
normalization is a duplicate when some asked question is at least
0.85-similar to it. -/
def is_duplicate (candidate : String) (asked_questions : List String) : Bool :=
  let nc := normalize_text candidate
  if nc = "" then false
  else asked_questions.any
    (fun asked => SIMILARITY_THRESHOLD ≤ similarity_ratio nc (normalize_text asked))

/-- nodes/interviewer.TOPIC_SEQUENCE. -/
def TOPIC_SEQUENCE : List String :=
  ["python_basics", "async", "db_modeling", "queues",
   "observability", "architecture", "testing", "rag_langchain"]

/-- nodes/interviewer.TOPIC_KEYWORDS, in dictionary order. -/
def TOPIC_KEYWORDS : List (String × List String) :=
  [("python_basics", ["python", "typing", "dataclass", "gil", "import"]),
   ("async", ["async", "await", "event loop", "coroutine", "concurrency"]),
   ("db_modeling", ["schema", "index", "join", "transaction", "normalization", "postgres", "sql"]),
   ("queues", ["queue", "kafka", "broker", "consumer", "producer", "offset", "partition"]),
   ("observability", ["observability", "metrics", "logging", "tracing", "otel", "opentelemetry"]),
   ("architecture", ["architecture", "design", "scaling", "consistency", "availability", "latency"]),
   ("testing", ["test", "testing", "unit", "integration", "contract"]),
   ("rag_langchain", ["rag", "retrieval", "embedding", "vector", "langchain", "prompt"])]

/-- The fixed fallback template per topic in fallback_question. -/
def fallbackTemplates : List (String × String) :=
  [("python_basics", "What Python feature do you rely on most in day-to-day backend work, and why?"),
   ("async", "How do you approach backpressure when using async I/O in Python?"),
   ("db_modeling", "How do you decide between normalization and denormalization for a read-heavy system?"),
   ("queues", "What trade-offs do you consider when designing Kafka partitioning?"),
   ("observability", "Which three signals are most important for diagnosing latency spikes, and why?"),
   ("architecture", "How do you evaluate trade-offs between consistency and availability in system design?"),
   ("testing", "How do you structure integration tests to keep them reliable and fast?"),
   ("rag_langchain", "How do you reduce hallucinations in a RAG system while keeping latency low?")]

/-- The generic continuation prompt of fallback_question. -/
def genericContinuation : String :=
  "Which area of backend engineering do you want to explore next?"

/-- nodes/interviewer.fallback_question: the template of the first topic
of TOPIC_SEQUENCE not yet covered, else the generic continuation. -/
def fallback_question (topics_covered : List String) : String :=
  let covered := topics_covered.filter (fun t => t ≠ "")
  match TOPIC_SEQUENCE.find? (fun t => ¬ covered.contains t) with
  | Option.some t =>
      match fallbackTemplates.lookup t with
      | Option.some q => q
      | Option.none => genericContinuation
  | Option.none => genericContinuation

/-- nodes/interviewer.is_repeat_complaint markers. -/
def repeatMarkers : List String := ["повтор", "repeat", "again", "same question"]

/-- nodes/interviewer.is_repeat_complaint. -/
def is_repeat_complaint (message : String) : Bool :=
  let text := normalize_text message
  if text = "" then false
  else repeatMarkers.any (fun m => containsSub text.data m.data)

/-- The rewrite loop of generate_question: remaining attempts and the
index of the next generation request (the external generator is
modelled as a function from the call index to the returned question). -/
def rewriteLoop (gen : Nat → String) (asked_questions topics_covered : List String) :
    Nat → Nat → String
  | 0, _ => fallback_question topics_covered
  | Nat.succ remaining, attempt =>
      let candidate := gen attempt
      if ¬ is_duplicate candidate asked_questions then candidate
      else rewriteLoop gen asked_questions topics_covered remaining (attempt + 1)

/-- nodes/interviewer.generate_question: answer a repeat complaint with
the fallback immediately; otherwise accept the first generated question
that is not a duplicate, retrying at most MAX_REWRITE_ATTEMPTS times,
and fall back deterministically when the budget is exhausted. -/
def generate_question (gen : Nat → String) (last_user_message_raw : String)
    (asked_questions topics_covered : List String) : String :=
  let last_user_message := pyStrip last_user_message_raw
  if is_repeat_complaint last_user_message then fallback_question topics_covered
  else
    let base := gen 0
    if ¬ is_duplicate base asked_questions then base
    else rewriteLoop gen asked_questions topics_covered MAX_REWRITE_ATTEMPTS 1

/-- nodes/interviewer.update_asked_questions: drop empty entries, append
the stripped message unless it is empty or already present verbatim. -/
def update_asked_questions (asked : List String) (message : String) : List String :=
  let normalized := asked.filter (fun item => item ≠ "")
  let cleaned := pyStrip message
  if cleaned ≠ "" ∧ ¬ normalized.contains cleaned then normalized ++ [cleaned]
  else normalized

/-- nodes/interviewer.infer_topic_from_question: the first topic whose
keyword list has a member occurring in the normalized question. -/
def infer_topic_from_question (question : String) : Option String :=
  let text := normalize_text question
  TOPIC_KEYWORDS.findSome?
    (fun p => if p.2.any (fun kw => containsSub text.data kw.data) then Option.some p.1
              else Option.none)

/-- nodes/interviewer.update_topics_from_question: record the inferred
topic of the question into the covered-topics list. -/
def update_topics_from_question (topics : List String) (question : String) : List String :=
  let normalized := topics.filter (fun t => t ≠ "")
  match infer_topic_from_question question with
  | Option.some detected =>
      if ¬ normalized.contains detected then normalized ++ [detected] else normalized
  | Option.none => normalized

/-! ## Final feedback model (models.py) -/

/-- models.GradeTarget. -/
inductive GradeTarget where
  | intern
  | junior
  | middle
  | senior
  | staff
  | principal
deriving DecidableEq, Repr

/-- models.Decision with a validated confidence score. -/
structure Decision where
  grade : GradeTarget
  recommendation : String
  confidence_score : ℚ
deriving DecidableEq, Repr

/-- models.HardSkillsFeedback (the gaps mapping in insertion order). -/
structure HardSkillsFeedback where
  confirmed : List String := []
  gaps_with_correct_answers : List (String × String) := []
deriving DecidableEq, Repr

/-- models.SoftSkillsFeedback. -/
structure SoftSkillsFeedback where
  clarity : String
  honesty : String
  engagement : String
  examples : List String := []
deriving DecidableEq, Repr

/-- models.Roadmap. -/
structure Roadmap where
  next_steps : List String := []
  links : Option (List String) := Option.none
deriving DecidableEq, Repr

/-- models.FinalFeedback. -/
structure FinalFeedback where
  decision : Decision
  hard_skills : HardSkillsFeedback
  soft_skills : SoftSkillsFeedback
  roadmap : Roadmap
deriving DecidableEq, Repr

/-! ## Skill aggregation -/

/-- models.SkillEvidence. -/
structure SkillEvidence where
  topic : String
  claim : String
  is_correct : ℚ
  notes : String
  turn_id : Int
deriving DecidableEq, Repr

/-- models.SkillTopicState; level_estimate has passed the 1..5 range
validator whenever the structure is built through validation. -/
structure SkillTopicState where
  level_estimate : Int
  confirmed : List String := []
  gaps : List String := []
  evidence : List SkillEvidence := []
deriving DecidableEq, Repr

/-- Python round with banker rounding (round half to even), used by the
skill aggregation model and by the report summary percentage. -/
def pyRound (q : ℚ) : Int :=
  let f := ⌊q⌋
  let frac := q - f
  if frac < 1 / 2 then f
  else if 1 / 2 < frac then f + 1
  else if f % 2 = 0 then f else f + 1

/-- Clamp an integer level into the 1..5 band of SkillTopicState. -/
def clampLevel (n : Int) : Int := max 1 (min 5 n)

/-- Modelled from the spec: the Skill Aggregator of section 4.6 is not
present under src/ (nothing there ever writes a SkillTopicState; only
the data model and the zeroed baseline exist). Per the spec, a delta on
a new topic seeds its level estimate from the delta rounded and clamped
to 1..5, and a delta on an existing topic is added to the current level
and re-clamped to 1..5. -/
def apply_skill_delta (matrix : List (String × SkillTopicState)) (topic : String)
    (delta : ℚ) : List (String × SkillTopicState) :=
  match matrix.lookup topic with
  | Option.none =>
      matrix ++ [(topic, { level_estimate := clampLevel (pyRound delta) })]
  | Option.some current =>
      matrix.map (fun p =>
        if p.1 = topic then
          (topic, { current with
            level_estimate := clampLevel (pyRound ((current.level_estimate : ℚ) + delta)) })
        else p)

/-- Modelled from the spec: folding a whole sequence of skill deltas
(topic, delta) into the matrix, in order. -/
def apply_skill_deltas (matrix : List (String × SkillTopicState))
    (deltas : List (String × ℚ)) : List (String × SkillTopicState) :=
  deltas.foldl (fun acc d => apply_skill_delta acc d.1 d.2) matrix

/-- skills.SKILL_KEYS. -/
def SKILL_KEYS : List String :=
  ["python_basics", "async", "db_modeling", "queues",
   "observability", "architecture", "testing", "rag_langchain"]

/-- skills.build_skill_baseline: a zeroed flat score per skill key. -/
def build_skill_baseline : List (String × ℚ) :=
  SKILL_KEYS.map (fun key => (key, 0))

/-! ## Observer node (nodes/observer.py) -/

/-- Modelled from the spec: observer.py imports ObserverRoutingDecision
from models.py, but models.py does not define it; the fields are taken
from its use in run_observer (advance_topic, ask_deeper, expert_roles)
and from the Observer routing contract of the spec. -/
structure ObserverRoutingDecision where
  advance_topic : Bool
  ask_deeper : Bool
  expert_roles : List ExpertRole := []
deriving DecidableEq, Repr

/-- A value held in the difficulty slot of the shared state: the CLI
initializes it with the integer 3, the scenario runner with the string
MEDIUM, and the difficulty node writes tier strings. -/
inductive DiffVal where
  | int (n : Int)
  | str (s : String)
deriving DecidableEq, Repr

/-- Modelled from the spec: ExpertEvaluation is imported by
nodes/experts.py from models.py but not defined there; fields follow
its use in format_evaluation (comment, optional clarifying question)
and the Expert Panel contract of the spec. -/
structure ExpertEvaluation where
  comment : String
  question : Option String := Option.none
deriving DecidableEq, Repr

/-- The shared interview graph state (graph.InterviewState), with the
fields the modelled nodes read or write. -/
structure GState where
  stop_requested : Bool := false
  last_user_message : String := ""
  last_interviewer_message : String := ""
  pending_interviewer_message : Option String := Option.none
  pending_internal_thoughts : Option String := Option.none
  pending_report : Option ObserverReport := Option.none
  pending_difficulty : Option DiffVal := Option.none
  last_observer_report : Option ObserverReport := Option.none
  difficulty : Option DiffVal := Option.none
  difficulty_reason : String := ""
  turns : List TurnLog := []
  turn_log : Option TurnLog := Option.none
  planned_topics : List String := []
  current_topic_index : Int := 0
  topics_covered : List String := []
  asked_questions : List String := []
  pending_expert_nodes : List ExpertRole := []
  expert_evaluations : List (ExpertRole × String) := []
  final_feedback : Option FinalFeedback := Option.none
  final_feedback_text : Option String := Option.none
deriving Repr

/-- nodes/observer.next_turn_id: 1 on an empty history, else the id of
the last record plus one. -/
def next_turn_id (turns : List TurnLog) : Int :=
  match turns.getLast? with
  | Option.none => 1
  | Option.some last => last.turn_id + 1

/-- nodes/observer.topic_at: the stripped planned topic at the index,
None outside the range or when blank. -/
def topic_at (planned_topics : List String) (index : Int) : Option String :=
  if index < 0 ∨ (planned_topics.length : Int) ≤ index then Option.none
  else
    let topic := pyStrip (planned_topics.getD index.toNat "")
    if topic = "" then Option.none else Option.some topic

/-- pydantic lax coercion of a value to int for the TurnLog difficulty
fields: ints pass through, strings must be an optionally signed run of
digits (possibly surrounded by whitespace). -/
def pyIntOfStr (s : String) : Option Int :=
  let cs := pyStripChars s.data
  let (neg, body) :=
    match cs with
    | '+' :: r => (false, r)
    | '-' :: r => (true, r)
    | r => (false, r)
  if body ≠ [] ∧ body.all Char.isDigit then
    Option.some (if neg then -(Int.ofNat (digitsVal body)) else Int.ofNat (digitsVal body))
  else Option.none

/-- TurnLog validation of a difficulty value: coerce to int (pydantic),
then apply the validate_difficulty range check 1..5. -/
def coerceTurnDifficulty : Option DiffVal → Except String (Option Int)
  | Option.none => Except.ok Option.none
  | Option.some (DiffVal.int n) =>
      if 1 ≤ n ∧ n ≤ 5 then Except.ok (Option.some n)
      else Except.error "difficulty must be within 1..5"
  | Option.some (DiffVal.str s) =>
      match pyIntOfStr s with
      | Option.some n =>
          if 1 ≤ n ∧ n ≤ 5 then Except.ok (Option.some n)
          else Except.error "difficulty must be within 1..5"
      | Option.none => Except.error "ValidationError: difficulty is not an int"

/-- nodes/observer.build_turn_log_from_pending: None without a pending
question or a non-blank answer; otherwise a TurnLog carrying the pending
snapshot with the next turn id. Constructing the TurnLog validates the
difficulty fields, which can raise. -/
def build_turn_log_from_pending (st : GState) : Except String (Option TurnLog) :=
  match st.pending_interviewer_message with
  | Option.none => Except.ok Option.none
  | Option.some pending_message =>
      if pending_message = "" then Except.ok Option.none
      else
        let user_message := st.last_user_message
        if pyStrip user_message = "" then Except.ok Option.none
        else
          match coerceTurnDifficulty st.pending_difficulty with
          | Except.error e => Except.error e
          | Except.ok pd =>
              Except.ok (Option.some
                { turn_id := next_turn_id st.turns
                  agent_visible_message := pending_message
                  user_message := user_message
                  internal_thoughts := st.pending_internal_thoughts.getD ""
                  topic :=
                    match st.pending_report with
                    | Option.some r => Option.some r.detected_topic
                    | Option.none => topic_at st.planned_topics st.current_topic_index
                  difficulty_before := pd
                  difficulty_after := pd
                  flags := st.pending_report.map (fun r => r.flags)
                  skills_delta := st.pending_report.bind (fun r => r.skills_delta) })

/-- nodes/observer.update_topics_covered: append the stripped detected
topic when non-empty and new. -/
def update_topics_covered (topics : List String) (detected_topic : Option String) :
    List String :=
  let normalized := topics.filter (fun t => t ≠ "")
  match detected_topic with
  | Option.some dt =>
      let topic := pyStrip dt
      if topic ≠ "" ∧ ¬ normalized.contains topic then normalized ++ [topic]
      else normalized
  | Option.none => normalized

/-- nodes/observer.build_report: the synthetic ObserverReport built from
the routing decision. The ask_deeper keyword passed to ObserverFlags is
not a declared field and pydantic ignores it, so all flags are False. -/
def build_report (current_topic : Option String) (ask_deeper advance_topic : Bool) :
    ObserverReport :=
  let action := if advance_topic then NextAction.CHANGE_TOPIC else NextAction.ASK_DEEPER
  let flags : ObserverFlags := { off_topic := false }
  let aq : ℚ := if advance_topic then 38 / 10 else if ask_deeper then 26 / 10 else 32 / 10
  let conf : ℚ := if advance_topic then 7 / 10 else if ask_deeper then 6 / 10 else 65 / 100
  { detected_topic := current_topic.getD ""
    answer_quality := aq
    confidence := conf
    flags := flags
    recommended_next_action := action
    recommended_question_style := if ask_deeper then "clarify" else "advance"
    fact_check_notes := Option.none
    skills_delta := Option.none }

/-- The topic-index update of run_observer: advance by one, capped at
the plan length, only when the decision signals an advance and a plan
exists. -/
def observer_next_index (advance : Bool) (planned : List String) (idx : Int) : Int :=
  if advance ∧ planned ≠ [] then min (idx + 1) (planned.length : Int) else idx

/-- nodes/observer.run_observer as a state transformer: commit the
pending turn (if any), stop early without a non-blank answer, otherwise
consult the external routing decision, advance the topic index by at
most one (capped at the plan length), select expert roles, and publish
the synthetic report and covered topics. -/
def run_observer (dec : ObserverRoutingDecision) (st : GState) : Except String GState :=
  match build_turn_log_from_pending st with
  | Except.error e => Except.error e
  | Except.ok tlOpt =>
      let st1 :=
        match tlOpt with
        | Option.some tl =>
            { st with
              turns := st.turns ++ [tl]
              turn_log := Option.some tl
              pending_interviewer_message := Option.none
              pending_internal_thoughts := Option.none
              pending_report := Option.none
              pending_difficulty := Option.none }
        | Option.none => st
      if pyStrip st1.last_user_message = "" then Except.ok st1
      else
        let planned := st1.planned_topics
        let current_index := st1.current_topic_index
        let current_topic := topic_at planned current_index
        let next_index := observer_next_index dec.advance_topic planned current_index
        let report := build_report current_topic dec.ask_deeper dec.advance_topic
        Except.ok
          { st1 with
            current_topic_index := next_index
            pending_expert_nodes := dec.expert_roles
            last_observer_report := Option.some report
            topics_covered := update_topics_covered st1.topics_covered current_topic }

/-! ## Planner node (nodes/planner.py) -/

/-- nodes/planner.run_planner: skip when a plan already exists;
otherwise validate the topics returned by the planning collaborator
(via PlannedTopics) and set the topic index to 0. A validation failure
propagates. -/
def run_planner (oracle_topics : List String) (st : GState) : Except String GState :=
  if st.planned_topics ≠ [] then Except.ok st
  else
    match validate_topics oracle_topics with
    | Except.error e => Except.error e
    | Except.ok topics =>
        Except.ok { st with planned_topics := topics, current_topic_index := 0 }

/-! ## Interviewer node (nodes/interviewer.py) -/

/-- nodes/interviewer.select_strategy: flags take priority, then the
recommended action. -/
def select_strategy : Option ObserverReport → String
  | Option.none => "ask_standard"
  | Option.some report =>
      let flags := report.flags
      if flags.role_reversal then "answer_candidate_question"
      else if flags.off_topic then "return_to_topic"
      else if flags.hallucination then "handle_hallucination"
      else
        match report.recommended_next_action with
        | NextAction.ASK_DEEPER => "deepen"
        | NextAction.ASK_EASIER => "simplify"
        | NextAction.CHANGE_TOPIC => "change_topic"
        | NextAction.HANDLE_OFFTOPIC => "return_to_topic"
        | NextAction.HANDLE_HALLUCINATION => "handle_hallucination"
        | NextAction.HANDLE_ROLE_REVERSAL => "answer_candidate_question"
        | NextAction.WRAP_UP => "wrap_up"

/-- Python bool rendering inside f-strings. -/
def pyBoolStr (b : Bool) : String := if b then "True" else "False"

/-- Rendering of a NextAction member inside an f-string
(enum dotted form, as on current Python versions). -/
def nextActionStr (a : NextAction) : String :=
  "NextAction." ++
    match a with
    | NextAction.ASK_DEEPER => "ASK_DEEPER"
    | NextAction.ASK_EASIER => "ASK_EASIER"
    | NextAction.CHANGE_TOPIC => "CHANGE_TOPIC"
    | NextAction.HANDLE_OFFTOPIC => "HANDLE_OFFTOPIC"
    | NextAction.HANDLE_HALLUCINATION => "HANDLE_HALLUCINATION"
    | NextAction.HANDLE_ROLE_REVERSAL => "HANDLE_ROLE_REVERSAL"
    | NextAction.WRAP_UP => "WRAP_UP"

/-- nodes/interviewer.build_internal_thoughts. -/
def build_internal_thoughts (report : Option ObserverReport) (strategy : String) : String :=
  match report with
  | Option.none => "[Observer]: no report. [Interviewer]: strategy=" ++ strategy ++ "."
  | Option.some r =>
      let flags := r.flags
      let flags_summary :=
        "off_topic=" ++ pyBoolStr flags.off_topic ++ ", hallucination=" ++
        pyBoolStr flags.hallucination ++ ", contradiction=" ++
        pyBoolStr flags.contradiction ++ ", role_reversal=" ++
        pyBoolStr flags.role_reversal
      "[Observer]: topic=" ++ r.detected_topic ++ ", next_action=" ++
        nextActionStr r.recommended_next_action ++ ", " ++ flags_summary ++
        ". [Interviewer]: strategy=" ++ strategy ++ "."

/-- nodes/interviewer.run_interviewer as a state transformer: generate
the next question (the external generator as a call-indexed oracle) and
stage the pending snapshot for the next observation. -/
def run_interviewer (gen : Nat → String) (st : GState) : GState :=
  let report := st.last_observer_report
  let strategy := select_strategy report
  let q := generate_question gen st.last_user_message st.asked_questions st.topics_covered
  { st with
    last_interviewer_message := q
    pending_interviewer_message := Option.some q
    pending_internal_thoughts := Option.some (build_internal_thoughts report strategy)
    pending_report := report
    pending_difficulty := st.difficulty
    asked_questions := update_asked_questions st.asked_questions q
    topics_covered := update_topics_from_question st.topics_covered q }

/-! ## Difficulty node on the shared state -/

/-- The difficulty node as run inside the graph: the report and flag
checks come first; then the expression (state difficulty or empty
string).strip() raises AttributeError on a truthy integer difficulty
(the CLI initializes the slot with the integer 3), treats a missing or
zero difficulty as the empty string, and runs the tier transition on a
string difficulty via run_difficulty. -/
def difficulty_node (st : GState) : Except String GState :=
  match st.last_observer_report with
  | Option.none => Except.ok st
  | Option.some report =>
      if suppressed report.flags then Except.ok st
      else
        match st.difficulty with
        | Option.some (DiffVal.int n) =>
            if n = 0 then Except.ok st
            else Except.error "AttributeError: int object has no attribute strip"
        | other =>
            let raw := match other with
                       | Option.some (DiffVal.str s) => s
                       | _ => ""
            let upd := run_difficulty (Option.some report) raw
            Except.ok
              { st with
                difficulty :=
                  match upd.difficulty with
                  | Option.some nd => Option.some (DiffVal.str nd)
                  | Option.none => st.difficulty
                difficulty_reason := upd.difficulty_reason.getD st.difficulty_reason }

/-! ## Expert nodes (nodes/experts.py) -/

/-- nodes/experts.format_evaluation. -/
def format_evaluation (evaluation : ExpertEvaluation) : String :=
  match evaluation.question with
  | Option.some qq =>
      let question := pyStrip qq
      if question ≠ "" then
        pyStrip evaluation.comment ++ " Уточняющий вопрос: " ++ question
      else pyStrip evaluation.comment
  | Option.none => pyStrip evaluation.comment

/-- Write one role key of the role-keyed evaluation map. -/
def updateAssoc (m : List (ExpertRole × String)) (k : ExpertRole) (v : String) :
    List (ExpertRole × String) :=
  if m.any (fun p => p.1 = k) then m.map (fun p => if p.1 = k then (k, v) else p)
  else m ++ [(k, v)]

/-- nodes/experts.run_expert for one role: skip without a non-blank
candidate message, else store the formatted evaluation under the role
key. -/
def run_expert (expOracle : ExpertRole → ExpertEvaluation) (role : ExpertRole)
    (st : GState) : GState :=
  if pyStrip st.last_user_message = "" then st
  else
    { st with
      expert_evaluations :=
        updateAssoc st.expert_evaluations role (format_evaluation (expOracle role)) }

/-- The experts_router cycle of graph.py: route to the node of the first
pending role, which routes back to the router. No node ever removes a
role from pending_expert_nodes, so a non-empty selection loops until
the recursion limit; fuel models that limit. -/
def experts_loop (expOracle : ExpertRole → ExpertEvaluation) :
    Nat → GState → Except String GState
  | fuel, st =>
      match st.pending_expert_nodes with
      | [] => Except.ok st
      | role :: _ =>
          match fuel with
          | 0 => Except.error "GraphRecursionError"
          | Nat.succ f => experts_loop expOracle f (run_expert expOracle role st)

/-! ## Report node and CLI finalization (nodes/report.py, cli.py) -/

/-- rstrip of one character (Python str.rstrip with a single char). -/
def rstripChar (s : String) (c : Char) : String :=
  String.mk ((s.data.reverse.dropWhile (fun x => x = c)).reverse)

/-- nodes/report.join_items. -/
def join_items (items : List String) : String :=
  String.intercalate "; "
    ((items.filter (fun item => item ≠ "" ∧ pyStrip item ≠ "")).map
      (fun item => rstripChar (pyStrip item) '.'))

/-- nodes/report.grade_label. -/
def grade_label (grade : GradeTarget) : String :=
  match grade with
  | GradeTarget.intern => "intern-разработчика"
  | GradeTarget.junior => "junior-разработчика"
  | GradeTarget.middle => "middle-разработчика"
  | GradeTarget.senior => "senior-разработчика"
  | GradeTarget.staff => "staff-разработчика"
  | GradeTarget.principal => "principal-разработчика"

/-- nodes/report.summarize_feedback: the Russian summary text assembled
from the final feedback. -/
def summarize_feedback (feedback : FinalFeedback) : String :=
  let decision := feedback.decision
  let hard := feedback.hard_skills
  let soft := feedback.soft_skills
  let roadmap := feedback.roadmap
  let parts : List String :=
    ["В целом вы уверенно тянете уровень " ++ grade_label decision.grade ++ "."] ++
    (if hard.confirmed ≠ [] then
      ["Видно, что у вас есть реальный практический опыт: " ++ join_items hard.confirmed ++ "."]
     else []) ++
    (if soft.clarity ≠ "" ∨ soft.honesty ≠ "" ∨ soft.engagement ≠ "" then
      (let soft_bits := [soft.clarity, soft.honesty, soft.engagement].filter (fun b => b ≠ "")
       if soft_bits ≠ [] then
         ["По софт-скиллам: " ++ rstripChar (String.intercalate " " soft_bits) '.' ++ "."]
       else [])
     else []) ++
    (if soft.examples ≠ [] then ["Примеры: " ++ join_items soft.examples ++ "."] else []) ++
    (if hard.gaps_with_correct_answers ≠ [] then
      ["Что можно усилить: " ++
        String.intercalate "; "
          (hard.gaps_with_correct_answers.map
            (fun p => rstripChar (p.1 ++ " — " ++ p.2) '.')) ++ "."]
     else []) ++
    (if roadmap.next_steps ≠ [] then
      ["Рекомендации на следующий шаг: " ++ join_items roadmap.next_steps ++ "."]
     else []) ++
    (if decision.recommendation ≠ "" then
      ["Общая рекомендация: " ++ rstripChar decision.recommendation '.' ++ "."]
     else []) ++
    ["Уверенность в оценке — примерно " ++
      toString (pyRound (decision.confidence_score * 100)) ++ "%."]
  pyStrip (String.intercalate "\n\n" parts)

/-- nodes/report.run_report as a state transformer: store the validated
feedback of the reporting collaborator and, when non-empty, its summary
text. -/
def run_report (feedback : FinalFeedback) (st : GState) : GState :=
  let summary := summarize_feedback feedback
  { st with
    final_feedback := Option.some feedback
    final_feedback_text :=
      if summary ≠ "" then Option.some summary else st.final_feedback_text }

/-- A value held in the final_feedback slot of the CLI state dict: the
graph stores a FinalFeedback there, but the CLI resolution code also
branches on a plain string. -/
inductive FFVal where
  | s (text : String)
  | fb (f : FinalFeedback)
deriving DecidableEq, Repr

/-- Python str() of a FinalFeedback pydantic model: the field=value
rendering of the model. The rendering is abbreviated (nested field
reprs and quoting are not reproduced) but agrees with pydantic on what
matters here: it always starts with the literal text decision=. -/
def pyStrFinalFeedback (f : FinalFeedback) : String :=
  "decision=Decision(grade=" ++ grade_label f.decision.grade ++
    ", recommendation=" ++ f.decision.recommendation ++
    ", confidence_score=" ++ toString f.decision.confidence_score ++
    ") hard_skills=" ++ String.intercalate "; " f.hard_skills.confirmed ++
    " soft_skills=" ++ f.soft_skills.clarity ++
    " roadmap=" ++ String.intercalate "; " f.roadmap.next_steps

/-- Python str() of a final_feedback slot value. -/
def pyStrFF : FFVal → String
  | FFVal.s t => t
  | FFVal.fb f => pyStrFinalFeedback f

/-- cli.fallback_feedback. -/
def fallback_feedback (reason : String) : String :=
  "Интервью завершено без финального отчёта. Причина: " ++ reason ++ "."

/-- cli.resolve_final_feedback: the first usable text among the stored
summary text, a string final feedback, the str() rendering of any other
non-None final feedback, and the synthesized fallback. -/
def resolve_final_feedback (final_feedback_text : Option String)
    (final_feedback : Option FFVal) (reason : String) : String :=
  match final_feedback_text with
  | Option.some t =>
      if pyStrip t ≠ "" then pyStrip t
      else resolveRest final_feedback reason
  | Option.none => resolveRest final_feedback reason
where
  /-- The branches after the final_feedback_text check. -/
  resolveRest : Option FFVal → String → String
    | Option.some (FFVal.s t), _ =>
        if pyStrip t ≠ "" then pyStrip t else t
    | Option.some (FFVal.fb f), _ => pyStrFinalFeedback f
    | Option.none, reason => fallback_feedback reason

/-! ## Graph wiring (graph.py) -/

/-- graph.should_finalize: stop requested, or the plan pointer has
passed 10 topics and the last report recommends wrap-up or a further
topic change. -/
def should_finalize (st : GState) : Bool :=
  if st.stop_requested then true
  else if st.current_topic_index < 10 then false
  else
    match st.last_observer_report with
    | Option.none => false
    | Option.some report =>
        report.recommended_next_action = NextAction.WRAP_UP ||
        report.recommended_next_action = NextAction.CHANGE_TOPIC

/-- The external collaborators of one graph invocation: the planning
topics, the observer routing decision, the question generator (indexed
by call number), the expert panel, and the reporter. -/
structure Oracles where
  plannerTopics : List String := []
  decision : ObserverRoutingDecision := { advance_topic := false, ask_deeper := false }
  gen : Nat → String := fun _ => ""
  expertEval : ExpertRole → ExpertEvaluation := fun _ => { comment := "" }
  feedback : FinalFeedback

/-- One invocation of the compiled interview graph: intake, planner,
observer, then either the final report or the experts cycle followed by
difficulty and interviewer. Errors raised inside a node propagate out
of the invocation; fuel bounds the experts_router cycle, which the
graph cannot leave once a non-empty expert selection is pending. -/
def graphInvoke (o : Oracles) (fuel : Nat) (st0 : GState) : Except String GState :=
  match run_planner o.plannerTopics st0 with
  | Except.error e => Except.error e
  | Except.ok st1 =>
      match run_observer o.decision st1 with
      | Except.error e => Except.error e
      | Except.ok st2 =>
          if should_finalize st2 then Except.ok (run_report o.feedback st2)
          else
            match experts_loop o.expertEval fuel st2 with
            | Except.error e => Except.error e
            | Except.ok st3 =>
                match difficulty_node st3 with
                | Except.error e => Except.error e
                | Except.ok st4 => Except.ok (run_interviewer o.gen st4)

/-! ## The CLI driver around the graph (cli.py run loop) -/

/-- nodes/report.run_report with the reporting collaborator made
explicit as a fallible oracle: agent.invoke and the following
extraction and coercion run outside any exception handler inside
run_report, so a collaborator failure, or the TypeError that
coerce_feedback raises on output unusable as FinalFeedback, propagates
out of the report node. -/
def run_report_fallible (rep : Except String FinalFeedback) (st : GState) :
    Except String GState :=
  match rep with
  | Except.error e => Except.error e
  | Except.ok f => Except.ok (run_report f st)

/-- graphInvoke with the reporting collaborator fallible: the same
wiring, but the finalize branch runs the report node on a reporter that
can fail, and the failure propagates out of the invocation. With an
always-succeeding reporter this is exactly graphInvoke. -/
def graphInvokeF (o : Oracles) (rep : Except String FinalFeedback) (fuel : Nat)
    (st0 : GState) : Except String GState :=
  match run_planner o.plannerTopics st0 with
  | Except.error e => Except.error e
  | Except.ok st1 =>
      match run_observer o.decision st1 with
      | Except.error e => Except.error e
      | Except.ok st2 =>
          if should_finalize st2 then run_report_fallible rep st2
          else
            match experts_loop o.expertEval fuel st2 with
            | Except.error e => Except.error e
            | Except.ok st3 =>
                match difficulty_node st3 with
                | Except.error e => Except.error e
                | Except.ok st4 => Except.ok (run_interviewer o.gen st4)

/-- str.lower on a Lean String (the ranges the mapped texts use). -/
def pyLower (s : String) : String := String.mk (s.data.map pyLowerChar)

/-- cli.STOP_COMMANDS. -/
def STOP_COMMANDS : List String := ["stop", "стоп", "стоп интервью"]

/-- cli.should_stop. -/
def should_stop (message : String) : Bool :=
  STOP_COMMANDS.contains (pyLower (pyStrip message))

/-- One iteration of the run_cli main loop after the prompt returned a
candidate message: register a stop command, store the message, and
invoke the graph with no exception handler around the call, so a node
failure propagates out of run_cli (the Except error) and the session
ends with no final feedback text. On success, finalization runs only
when the state holds final feedback; the result carries the resolved
final text, or none when the session continues with another turn. -/
def cli_turn (o : Oracles) (rep : Except String FinalFeedback) (fuel : Nat)
    (st : GState) (user_message : String) : Except String (Option String) :=
  let stop := should_stop user_message
  let st1 := { st with
      stop_requested := if stop then true else st.stop_requested
      last_user_message := user_message }
  match graphInvokeF o rep fuel st1 with
  | Except.error e => Except.error e
  | Except.ok st2 =>
      if st2.final_feedback.isSome then
        Except.ok (Option.some (resolve_final_feedback st2.final_feedback_text
          (st2.final_feedback.map FFVal.fb)
          (if stop then "команда stop" else "запрошен финальный отчёт")))
      else Except.ok Option.none

/-- The EOF branch of the run_cli main loop: here the graph invocation
is wrapped in try/except, and finalization always runs on whatever
state is at hand, synthesizing the fallback summary citing the reason
when the reporter failed before storing any feedback. -/
def cli_eof_turn (o : Oracles) (rep : Except String FinalFeedback) (fuel : Nat)
    (st : GState) : String :=
  let st1 := { st with stop_requested := true, last_user_message := "" }
  let st2 := match graphInvokeF o rep fuel st1 with
             | Except.error _ => st1
             | Except.ok s => s
  resolve_final_feedback st2.final_feedback_text (st2.final_feedback.map FFVal.fb) "EOF"

/-! ## Predicates and harnesses used by the claims -/

/-- The ids of a turn history. -/
def turnIds (turns : List TurnLog) : List Int :=
  turns.map (fun t => t.turn_id)

/-- The id sequence 1..k as integers. -/
def expectedIds : Nat → List Int
  | 0 => []
  | Nat.succ k => expectedIds k ++ [(k : Int) + 1]

/-- The turn history carries exactly the ids 1..K in order. -/
def contiguousIds (turns : List TurnLog) : Prop :=
  turnIds turns = expectedIds turns.length

/-- The data of one completed exchange as it sits in the state when the
observer runs: the pending question, the answer just given, and the
rest of the pending snapshot. -/
structure PendingExchange where
  question : String
  answer : String
  internal : Option String := Option.none
  report : Option ObserverReport := Option.none
  pdiff : Option DiffVal := Option.none
  planned : List String := []
  index : Int := 0

/-- The graph state in which the observer commits a pending exchange on
an existing history. -/
def stateFor (turns : List TurnLog) (p : PendingExchange) : GState :=
  { pending_interviewer_message := Option.some p.question
    last_user_message := p.answer
    pending_internal_thoughts := p.internal
    pending_report := p.report
    pending_difficulty := p.pdiff
    turns := turns
    planned_topics := p.planned
    current_topic_index := p.index }

/-- Run the observer over a whole sequence of completed exchanges,
threading only the turn history (every other field is free per turn). -/
def commitAll (ps : List PendingExchange) (turns : List TurnLog) :
    Except String (List TurnLog) :=
  match ps with
  | [] => Except.ok turns
  | p :: rest =>
      match run_observer { advance_topic := false, ask_deeper := false } (stateFor turns p) with
      | Except.error e => Except.error e
      | Except.ok st => commitAll rest st.turns

/-- The invariant claimed for the asked-questions set: no later entry is
0.85-similar to an earlier one under the normalized similarity the
duplicate check itself computes (candidate first, earlier entry
second). -/
def askedInvariant (asked : List String) : Prop :=
  asked.Pairwise (fun earlier later =>
    similarity_ratio (normalize_text later) (normalize_text earlier) < SIMILARITY_THRESHOLD)

/-- Modelled from the spec: the claimed fallback selection rule chooses
the next topic in PLAN order that is not yet covered, and asks for a
generic continuation when every planned topic is covered (the value is
the selected plan topic, or none for the generic prompt). Used only to
compare the claimed rule with fallback_question, which consults a fixed
internal topic sequence instead of the plan. -/
def fallback_topic_claim (planned_topics topics_covered : List String) : Option String :=
  planned_topics.find? (fun t => ¬ topics_covered.contains t)

/-- The question the generation oracle returns in the asked-questions
counterexample run: the async fallback template without its final
question mark. -/
def c5FirstQuestion : String :=
  "How do you approach backpressure when using async I/O in Python"

/-- The fixed async fallback template of nodes/interviewer. -/
def c5FallbackQuestion : String :=
  "How do you approach backpressure when using async I/O in Python?"

/-- Oracles for the asked-questions counterexample run: a valid
ten-topic plan, a non-advancing observer with no expert requests, and a
generator that always proposes c5FirstQuestion. -/
def c5Oracles : Oracles where
  plannerTopics := ["t1", "t2", "t3", "t4", "t5", "t6", "t7", "t8", "t9", "t10"]
  decision := { advance_topic := false, ask_deeper := false, expert_roles := [] }
  gen := fun _ => c5FirstQuestion
  feedback := { decision := { grade := GradeTarget.junior, recommendation := "r",
                              confidence_score := 1/2 },
                hard_skills := {},
                soft_skills := { clarity := "c", honesty := "h", engagement := "e" },
                roadmap := {} }

/-- The candidate answer of the smoke scenario second invocation. -/
def c8Answer : String := "Kafka guarantees exactly-once delivery by default."

/-- Oracles for the two-invocation session of the scenario claim: a
valid ten-topic plan, a non-advancing observer, and a generator whose
first proposal is the first question and whose rewrite proposals are
dissimilar from it. -/
def c8Oracles : Oracles where
  plannerTopics := ["t1", "t2", "t3", "t4", "t5", "t6", "t7", "t8", "t9", "t10"]
  decision := { advance_topic := false, ask_deeper := false, expert_roles := [] }
  gen := fun n => if n = 0 then "Question 1?" else "Tell me about testing pyramids"
  feedback := { decision := { grade := GradeTarget.junior, recommendation := "r",
                              confidence_score := 1/2 },
                hard_skills := {},
                soft_skills := { clarity := "c", honesty := "h", engagement := "e" },
                roadmap := {} }

/-! ## Helper lemmas -/

/-- A string with a non-empty left part of an append is non-empty. -/
theorem append_ne_empty_left (s t : String) (h : s ≠ "") : s ++ t ≠ "" := by
  intro hc
  apply h
  have hd := congrArg String.data hc
  rw [String.data_append] at hd
  rcases List.append_eq_nil.mp hd with ⟨h1, _⟩
  cases s with
  | mk data =>
      rw [show data = [] from h1]

/-- The pydantic str() rendering of a FinalFeedback is never empty. -/
theorem pyStrFinalFeedback_ne_empty (f : FinalFeedback) : pyStrFinalFeedback f ≠ "" := by
  unfold pyStrFinalFeedback
  apply append_ne_empty_left
  apply append_ne_empty_left
  apply append_ne_empty_left
  apply append_ne_empty_left
  apply append_ne_empty_left
  apply append_ne_empty_left
  apply append_ne_empty_left
  apply append_ne_empty_left
  apply append_ne_empty_left
  apply append_ne_empty_left
  intro h
  simpa using congrArg String.data h

/-- The synthesized fallback feedback is never empty. -/
theorem fallback_feedback_ne_empty (reason : String) : fallback_feedback reason ≠ "" := by
  unfold fallback_feedback
  apply append_ne_empty_left
  apply append_ne_empty_left
  intro h
  simpa using congrArg String.data h

/-- cleanTopics succeeds exactly on lists whose entries are all
non-blank, and then returns the stripped entries. -/
theorem cleanTopics_ok (ts : List String) (h : ∀ t ∈ ts, pyStrip t ≠ "") :
    cleanTopics ts = Except.ok (ts.map pyStrip) := by
  induction ts with
  | nil => rfl
  | cons t rest ih =>
      have ht : pyStrip t ≠ "" := h t (List.mem_cons_self t rest)
      have hrest : ∀ x ∈ rest, pyStrip x ≠ "" := fun x hx => h x (List.mem_cons_of_mem t hx)
      simp [cleanTopics, ht, ih hrest, Except.map]

/-- cleanTopics fails when some entry is blank after stripping. -/
theorem cleanTopics_err (ts : List String) (h : ∃ t ∈ ts, pyStrip t = "") :
    cleanTopics ts = Except.error "topics must be non-empty strings" := by
  induction ts with
  | nil => simp at h
  | cons t rest ih =>
      by_cases ht : pyStrip t = ""
      · simp [cleanTopics, ht]
      · rcases h with ⟨x, hx, hxs⟩
        rcases List.mem_cons.mp hx with rfl | hxr
        · exact absurd hxs ht
        · simp [cleanTopics, ht, ih ⟨x, hxr, hxs⟩, Except.map]

/-- clamp lands inside the band for every value that does not coerce to
NaN. -/
theorem clamp_in_range (v : PyVal) (low high : ℚ) (hlh : low ≤ high)
    (h : pyFloatOf v ≠ Option.some PyFloat.fnan) :
    ∃ q, clamp v low high = PyFloat.fq q ∧ low ≤ q ∧ q ≤ high := by
  unfold clamp coerce_float
  cases hv : pyFloatOf v with
  | none =>
      refine ⟨low, ?_, le_refl low, hlh⟩
      simp [pfLt, pfGt, not_lt.mpr hlh]
  | some f =>
      cases f with
      | fq q =>
          by_cases h1 : q < low
          · exact ⟨low, by simp [pfLt, h1], le_refl low, hlh⟩
          · by_cases h2 : high < q
            · exact ⟨high, by simp [pfLt, pfGt, h1, h2], hlh, le_refl high⟩
            · exact ⟨q, by simp [pfLt, pfGt, h1, h2], not_lt.mp h1, not_lt.mp h2⟩
      | fnan => exact absurd hv h
      | finf => exact ⟨high, by simp [pfLt, pfGt], hlh, le_refl high⟩
      | fninf => exact ⟨low, by simp [pfLt, pfGt], le_refl low, hlh⟩

/-- clamp returns the lower bound on values float() rejects. -/
theorem clamp_default (v : PyVal) (low high : ℚ) (hlh : low ≤ high)
    (h : pyFloatOf v = Option.none) :
    clamp v low high = PyFloat.fq low := by
  unfold clamp coerce_float
  rw [h]
  simp [pfLt, pfGt, not_lt.mpr hlh]

/-! ## C4: topic-plan validation -/

/-- C4 counterexample: PlannedTopics.validate_topics accepts ten copies
of the same topic string, so validation does not require the entries to
be pairwise distinct and a duplicate entry is not a validation error. -/
theorem validate_topics_accepts_duplicates :
    validate_topics (List.replicate 10 "python") =
      Except.ok (List.replicate 10 "python") ∧
    ¬ (List.replicate 10 "python").Nodup := by
  constructor
  · rfl
  · decide

/-- C4 (amended): topic-plan validation accepts a planner result exactly
when it contains exactly 10 entries that are non-empty after trimming;
a wrong count or an empty entry is a fatal validation error, but
duplicate entries are accepted. -/
theorem validate_topics_characterization (ts : List String) :
    (∃ cleaned, validate_topics ts = Except.ok cleaned) ↔
      (ts.length = 10 ∧ ∀ t ∈ ts, pyStrip t ≠ "") := by
  constructor
  · rintro ⟨cleaned, hok⟩
    by_cases hall : ∀ t ∈ ts, pyStrip t ≠ ""
    · refine ⟨?_, hall⟩
      rw [validate_topics, cleanTopics_ok ts hall] at hok
      by_cases hlen : ts.length = 10
      · exact hlen
      · simp [hlen] at hok
    · push_neg at hall
      rcases hall with ⟨x, hx, hxs⟩
      rw [validate_topics, cleanTopics_err ts ⟨x, hx, hxs⟩] at hok
      cases hok
  · rintro ⟨hlen, hall⟩
    refine ⟨ts.map pyStrip, ?_⟩
    rw [validate_topics, cleanTopics_ok ts hall]
    simp [hlen]

/-- C4 witness: a concrete 10-topic list is accepted. -/
theorem validate_topics_characterization_witness :
    ∃ cleaned,
      validate_topics ["a", "b", "c", "d", "e", "f", "g", "h", "i", "j"] =
        Except.ok cleaned :=
  (validate_topics_characterization _).mpr ⟨rfl, by decide⟩

/-! ## C10: totality of the report numeric validation -/

/-- C10 counterexample: a NaN input (as a float or as the string nan)
makes the clamp return NaN, and the field range constraint then rejects
the report, so validation is not total. -/
theorem quality_validation_nan_rejected :
    validate_answer_quality PyVal.nan = Except.error "value out of field range" ∧
    validate_answer_quality (PyVal.str "nan") = Except.error "value out of field range" ∧
    validate_confidence PyVal.nan = Except.error "value out of field range" :=
  ⟨rfl, rfl, rfl⟩

/-- C10 (amended): for every input value whose float coercion is not
NaN, validation of answer_quality and confidence never raises and
yields a number inside [0,5] and [0,1] respectively, and any value that
float() rejects is mapped to the lower bound 0.0; an input coercing to
NaN makes the clamp return NaN and the subsequent range constraint
raises. -/
theorem quality_validation_total_unless_nan (v : PyVal)
    (h : pyFloatOf v ≠ Option.some PyFloat.fnan) :
    (∃ q, validate_answer_quality v = Except.ok q ∧ 0 ≤ q ∧ q ≤ 5) ∧
    (∃ q, validate_confidence v = Except.ok q ∧ 0 ≤ q ∧ q ≤ 1) ∧
    (pyFloatOf v = Option.none →
      validate_answer_quality v = Except.ok 0 ∧ validate_confidence v = Except.ok 0) := by
  refine ⟨?_, ?_, ?_⟩
  · rcases clamp_in_range v 0 5 (by norm_num) h with ⟨q, hq, h0, h5⟩
    exact ⟨q, by simp [validate_answer_quality, hq, fieldRangeCheck, h0, h5], h0, h5⟩
  · rcases clamp_in_range v 0 1 (by norm_num) h with ⟨q, hq, h0, h1⟩
    exact ⟨q, by simp [validate_confidence, hq, fieldRangeCheck, h0, h1], h0, h1⟩
  · intro hn
    constructor
    · rw [validate_answer_quality, clamp_default v 0 5 (by norm_num) hn]
      simp [fieldRangeCheck]
    · rw [validate_confidence, clamp_default v 0 1 (by norm_num) hn]
      simp [fieldRangeCheck]

/-- C10 witness: at None (float() raises TypeError) both validators
return 0.0. -/
theorem quality_validation_total_unless_nan_witness :
    ∃ q, validate_answer_quality PyVal.none = Except.ok q ∧ 0 ≤ q ∧ q ≤ 5 :=
  (quality_validation_total_unless_nan PyVal.none (by simp [pyFloatOf])).1

/-! ## C7: final feedback at session end -/

/-- The resolution step itself is total: for every state the graph can
produce (the final_feedback slot holds a FinalFeedback model or
nothing), resolve_final_feedback yields a non-empty text, and when the
stored text is missing or blank and no feedback was produced, exactly
the synthesized fallback summary citing the termination reason. This
covers only the paths of run_cli that reach the resolution; the claim
theorem below shows the stop-command path does not reach it when the
reporter fails. -/
theorem final_feedback_nonempty (ft : Option String) (f : Option FinalFeedback)
    (reason : String) :
    resolve_final_feedback ft (f.map FFVal.fb) reason ≠ "" ∧
    ((∀ t, ft = Option.some t → pyStrip t = "") → f = Option.none →
      resolve_final_feedback ft (f.map FFVal.fb) reason =
        "Интервью завершено без финального отчёта. Причина: " ++ reason ++ ".") := by
  constructor
  · unfold resolve_final_feedback
    cases ft with
    | none =>
        cases f with
        | none => exact fallback_feedback_ne_empty reason
        | some fb => exact pyStrFinalFeedback_ne_empty fb
    | some t =>
        by_cases hts : pyStrip t ≠ ""
        · simp [hts]
        · cases f with
          | none => simpa [hts] using fallback_feedback_ne_empty reason
          | some fb => simpa [hts] using pyStrFinalFeedback_ne_empty fb
  · intro hblank hforNone
    subst hforNone
    unfold resolve_final_feedback
    cases ft with
    | none => rfl
    | some t => simp [hblank t rfl, resolve_final_feedback.resolveRest, fallback_feedback]

/-- With nothing usable in the state, the resolution step synthesizes
the fallback citing the reason (instance of the lemma above). -/
theorem final_feedback_nonempty_witness :
    resolve_final_feedback (Option.some "   ") (Option.map FFVal.fb Option.none) "EOF" =
      "Интервью завершено без финального отчёта. Причина: " ++ "EOF" ++ "." :=
  (final_feedback_nonempty (Option.some "   ") Option.none "EOF").2
    (fun t ht => by cases ht; rfl) rfl

/-- C7: a terminating session does not always end with a final feedback
text. The graph invocation inside the run_cli main loop runs outside
any exception handler, and run_report itself has none, so when the
reporting collaborator fails (or returns output unusable as
FinalFeedback) on the stop-command path, the failure propagates out of
run_cli and the session ends with no final feedback text at all; the
synthesized fallback summary is produced only on the wrapped EOF,
KeyboardInterrupt and max-turns paths. Conjuncts: the fallible-reporter
graph is exactly graphInvoke when the reporter succeeds; a concrete
session whose second user message is the stop command ends in the
propagated reporter error, with no fallback text; the same session
ended by EOF instead recovers to the non-empty synthesized fallback. -/
theorem reporter_failure_ends_without_feedback :
    (∀ (o : Oracles) (fuel : Nat) (st : GState),
        graphInvokeF o (Except.ok o.feedback) fuel st = graphInvoke o fuel st) ∧
    ((graphInvokeF c8Oracles (Except.error "ReportAgentError") 9 {}).bind
        (fun st1 => cli_turn c8Oracles (Except.error "ReportAgentError") 9 st1 "stop")) =
      Except.error "ReportAgentError" ∧
    ((graphInvokeF c8Oracles (Except.error "ReportAgentError") 9 {}).map
        (fun st1 => cli_eof_turn c8Oracles (Except.error "ReportAgentError") 9 st1)) =
      Except.ok (fallback_feedback "EOF") ∧
    fallback_feedback "EOF" ≠ "" :=
  ⟨fun _ _ _ => rfl, rfl, rfl, fallback_feedback_ne_empty "EOF"⟩

/-! ## C3: difficulty transition rule -/

/-- C3: the difficulty stage is a no-op whenever the report carries any
of the suppression flags role_reversal, off_topic, hallucination; when
none is set and the state holds a known tier, quality at least 4.0
promotes the tier index by exactly one clamped at the top, quality at
most 2.0 demotes it by exactly one clamped at the bottom, and any other
quality leaves the tier unchanged (no difficulty key emitted). -/
theorem difficulty_transition (r : ObserverReport) (d : String) :
    (suppressed r.flags = true → run_difficulty (Option.some r) d = {}) ∧
    (suppressed r.flags = false →
      ∀ i, tierIdx (pyUpper (pyStrip d)) = Option.some i →
        ((4 ≤ r.answer_quality →
            tierIdx ((run_difficulty (Option.some r) d).difficulty.getD (pyUpper (pyStrip d))) =
              Option.some (min (i + 1) (tierOrder.length - 1))) ∧
         (r.answer_quality ≤ 2 →
            tierIdx ((run_difficulty (Option.some r) d).difficulty.getD (pyUpper (pyStrip d))) =
              Option.some (i - 1)) ∧
         (¬ 4 ≤ r.answer_quality → ¬ r.answer_quality ≤ 2 →
            (run_difficulty (Option.some r) d).difficulty = Option.none))) := by
  constructor
  · intro hs
    simp [run_difficulty, hs]
  · intro hs i hi
    have hrd : run_difficulty (Option.some r) d = difficultyStep r (pyUpper (pyStrip d)) := by
      simp [run_difficulty, hs]
    rw [hrd]
    generalize hc : pyUpper (pyStrip d) = c at hi ⊢
    unfold tierIdx at hi
    split at hi
    · -- c = EASY, i = 0
      cases hi
      refine ⟨?_, ?_, ?_⟩
      · intro h4
        by_cases h2 : r.answer_quality ≤ 2
        · exact absurd (le_trans h4 h2) (by norm_num)
        · simp [difficultyStep, tierIdx, tierOrder, h4]
      · intro h2
        by_cases h4 : (4:ℚ) ≤ r.answer_quality
        · exact absurd (le_trans h4 h2) (by norm_num)
        · simp [difficultyStep, tierIdx, tierOrder, h4, h2]
      · intro h4 h2
        simp [difficultyStep, tierIdx, tierOrder, h4, h2]
    · -- c = MEDIUM, i = 1
      cases hi
      refine ⟨?_, ?_, ?_⟩
      · intro h4
        by_cases h2 : r.answer_quality ≤ 2
        · exact absurd (le_trans h4 h2) (by norm_num)
        · simp [difficultyStep, tierIdx, tierOrder, h4]
      · intro h2
        by_cases h4 : (4:ℚ) ≤ r.answer_quality
        · exact absurd (le_trans h4 h2) (by norm_num)
        · simp [difficultyStep, tierIdx, tierOrder, h4, h2]
      · intro h4 h2
        simp [difficultyStep, tierIdx, tierOrder, h4, h2]
    · -- c = HARD, i = 2
      cases hi
      refine ⟨?_, ?_, ?_⟩
      · intro h4
        by_cases h2 : r.answer_quality ≤ 2
        · exact absurd (le_trans h4 h2) (by norm_num)
        · simp [difficultyStep, tierIdx, tierOrder, h4]
      · intro h2
        by_cases h4 : (4:ℚ) ≤ r.answer_quality
        · exact absurd (le_trans h4 h2) (by norm_num)
        · simp [difficultyStep, tierIdx, tierOrder, h4, h2]
      · intro h4 h2
        simp [difficultyStep, tierIdx, tierOrder, h4, h2]
    · cases hi

/-- C3 witness: a hallucination-flagged report leaves the tier alone at
any quality, and without flags quality 4.5 promotes easy to MEDIUM. -/
theorem difficulty_transition_witness :
    run_difficulty
        (Option.some
          { detected_topic := "t", answer_quality := 9/2, confidence := 7/10,
            flags := { hallucination := true },
            recommended_next_action := NextAction.ASK_DEEPER,
            recommended_question_style := "s" }) "easy" = {} ∧
    tierIdx
        ((run_difficulty
            (Option.some
              { detected_topic := "t", answer_quality := 9/2, confidence := 7/10,
                flags := {},
                recommended_next_action := NextAction.ASK_DEEPER,
                recommended_question_style := "s" }) "easy").difficulty.getD
          (pyUpper (pyStrip "easy"))) = Option.some (min (0 + 1) (tierOrder.length - 1)) := by
  constructor
  · exact (difficulty_transition
      { detected_topic := "t", answer_quality := 9/2, confidence := 7/10,
        flags := { hallucination := true },
        recommended_next_action := NextAction.ASK_DEEPER,
        recommended_question_style := "s" } "easy").1 rfl
  · exact (((difficulty_transition
      { detected_topic := "t", answer_quality := 9/2, confidence := 7/10,
        flags := {},
        recommended_next_action := NextAction.ASK_DEEPER,
        recommended_question_style := "s" } "easy").2 rfl 0 (by decide)).1 (by norm_num))

/-! ## C2: skill levels stay in the 1..5 band -/

/-- clampLevel always lands in 1..5. -/
theorem clampLevel_mem (n : Int) : 1 ≤ clampLevel n ∧ clampLevel n ≤ 5 := by
  unfold clampLevel
  constructor
  · exact le_max_left 1 _
  · exact max_le (by norm_num) (min_le_left 5 n)

/-- Every entry of apply_skill_delta is an old entry or carries a
clamped level. -/
theorem apply_skill_delta_mem (matrix : List (String × SkillTopicState))
    (topic : String) (delta : ℚ) (p : String × SkillTopicState)
    (hp : p ∈ apply_skill_delta matrix topic delta) :
    p ∈ matrix ∨ (1 ≤ p.2.level_estimate ∧ p.2.level_estimate ≤ 5) := by
  unfold apply_skill_delta at hp
  cases hlook : matrix.lookup topic with
  | none =>
      rw [hlook] at hp
      rcases List.mem_append.mp hp with hin | hnew
      · exact Or.inl hin
      · right
        rcases List.mem_singleton.mp hnew with rfl
        exact clampLevel_mem _
  | some current =>
      rw [hlook] at hp
      rcases List.mem_map.mp hp with ⟨q, hq, hfq⟩
      by_cases hqt : q.1 = topic
      · right
        rw [if_pos hqt] at hfq
        rw [← hfq]
        exact clampLevel_mem _
      · left
        rw [if_neg hqt] at hfq
        exact hfq ▸ hq

/-- C2 (spec-modelled aggregator): after any sequence of valid skill
deltas every level estimate lies in [1,5]; a delta on a new topic seeds
that topic with the delta rounded and clamped to [1,5]; a delta on an
existing topic adds the delta to the current level and re-clamps to
[1,5]. -/
theorem skill_levels_clamped :
    (∀ (deltas : List (String × ℚ)) (matrix : List (String × SkillTopicState)),
      (∀ p ∈ matrix, 1 ≤ p.2.level_estimate ∧ p.2.level_estimate ≤ 5) →
      ∀ p ∈ apply_skill_deltas matrix deltas,
        1 ≤ p.2.level_estimate ∧ p.2.level_estimate ≤ 5) ∧
    (∀ (matrix : List (String × SkillTopicState)) (topic : String) (delta : ℚ),
      matrix.lookup topic = Option.none →
      apply_skill_delta matrix topic delta =
        matrix ++ [(topic, { level_estimate := clampLevel (pyRound delta) })]) ∧
    (∀ (matrix : List (String × SkillTopicState)) (topic : String) (delta : ℚ)
        (s : SkillTopicState), matrix.lookup topic = Option.some s →
      ∀ p ∈ apply_skill_delta matrix topic delta, p.1 = topic →
        p.2.level_estimate = clampLevel (pyRound ((s.level_estimate : ℚ) + delta))) := by
  refine ⟨?_, ?_, ?_⟩
  · intro deltas
    induction deltas with
    | nil => intro matrix hinv p hp; exact hinv p hp
    | cons dlt rest ih =>
        intro matrix hinv p hp
        apply ih (apply_skill_delta matrix dlt.1 dlt.2)
        · intro q hq
          rcases apply_skill_delta_mem matrix dlt.1 dlt.2 q hq with hin | hb
          · exact hinv q hin
          · exact hb
        · exact hp
  · intro matrix topic delta hlook
    unfold apply_skill_delta
    rw [hlook]
  · intro matrix topic delta s hlook p hp hpt
    unfold apply_skill_delta at hp
    rw [hlook] at hp
    rcases List.mem_map.mp hp with ⟨q, _, hfq⟩
    by_cases hqt : q.1 = topic
    · rw [if_pos hqt] at hfq
      rw [← hfq]
    · rw [if_neg hqt] at hfq
      exact absurd (hfq ▸ hpt) hqt

/-- C2 witness: starting from an empty matrix, the delta sequence
(sql, 0.5), (sql, 7), (k8s, -3) yields levels 5 and 1, inside the
band. -/
theorem skill_levels_clamped_witness :
    1 ≤ (("sql", ({ level_estimate := 5 } : SkillTopicState)) :
          String × SkillTopicState).2.level_estimate ∧
    (("sql", ({ level_estimate := 5 } : SkillTopicState)) :
          String × SkillTopicState).2.level_estimate ≤ 5 :=
  skill_levels_clamped.1 [("sql", 1/2), ("sql", 7), ("k8s", -3)] []
    (by intro p hp; cases hp)
    ("sql", { level_estimate := 5 })
    (by decide)

/-! ## C1: turn ids are exactly 1..K -/

/-- The id sequence 1..k equals the mapped range form. -/
theorem expectedIds_eq_range (k : Nat) :
    expectedIds k = (List.range k).map (fun n : Nat => (n : Int) + 1) := by
  induction k with
  | zero => rfl
  | succ n ih =>
      rw [expectedIds, List.range_succ, List.map_append, ih]
      rfl

/-- The id sequence 1..k+1 ends with k+1. -/
theorem expectedIds_getLast (k : Nat) :
    (expectedIds (k + 1)).getLast? = Option.some ((k : Int) + 1) := by
  simp [expectedIds, List.getLast?_concat]

/-- On a contiguous history 1..n, the next id handed out is n + 1. -/
theorem next_turn_id_of_contiguous (turns : List TurnLog) (h : contiguousIds turns) :
    next_turn_id turns = turns.length + 1 := by
  cases hl : turns.getLast? with
  | none =>
      have ht : turns = [] := List.getLast?_eq_none_iff.mp hl
      subst ht
      rfl
  | some last =>
      have hne : turns ≠ [] := by
        intro hnil
        rw [hnil] at hl
        cases hl
      obtain ⟨m, hm⟩ : ∃ m, turns.length = m + 1 :=
        ⟨turns.length - 1, (Nat.succ_pred_eq_of_pos (List.length_pos.mpr hne)).symm⟩
      have hmap := congrArg List.getLast? h
      rw [turnIds, List.getLast?_map, hl, hm, expectedIds_getLast] at hmap
      simp only [Option.map_some'] at hmap
      have hlast : last.turn_id = (m : Int) + 1 := by
        injection hmap
      unfold next_turn_id
      rw [hl]
      show last.turn_id + 1 = (turns.length : Int) + 1
      rw [hlast, hm]
      push_cast
      ring

/-- Appending a record carrying id n + 1 keeps the history contiguous. -/
theorem contiguous_append (turns : List TurnLog) (tl : TurnLog)
    (h : contiguousIds turns) (hid : tl.turn_id = turns.length + 1) :
    contiguousIds (turns ++ [tl]) := by
  unfold contiguousIds turnIds at h ⊢
  rw [List.map_append, List.length_append]
  simp only [List.map_cons, List.map_nil, List.length_cons, List.length_nil]
  rw [show turns.length + 1 = Nat.succ turns.length from rfl, expectedIds, h]
  simp [hid]

/-- When a pending question and a non-blank answer exist and the pending
difficulty validates, the observer commit produces exactly the next
record. -/
theorem build_turn_log_some (st : GState) (q : String)
    (hqm : st.pending_interviewer_message = Option.some q) (hq : q ≠ "")
    (ha : pyStrip st.last_user_message ≠ "")
    (pd : Option Int) (hd : coerceTurnDifficulty st.pending_difficulty = Except.ok pd) :
    build_turn_log_from_pending st =
      Except.ok (Option.some
        { turn_id := next_turn_id st.turns
          agent_visible_message := q
          user_message := st.last_user_message
          internal_thoughts := st.pending_internal_thoughts.getD ""
          topic :=
            match st.pending_report with
            | Option.some r => Option.some r.detected_topic
            | Option.none => topic_at st.planned_topics st.current_topic_index
          difficulty_before := pd
          difficulty_after := pd
          flags := st.pending_report.map (fun r => r.flags)
          skills_delta := st.pending_report.bind (fun r => r.skills_delta) }) := by
  unfold build_turn_log_from_pending
  rw [hqm]
  simp [hq, ha, hd]

/-- The observer call leaves the committed history in the state it
returns: with a valid pending exchange it is the old history plus the
one new record. -/
theorem run_observer_turns (dec : ObserverRoutingDecision) (st : GState)
    (tl : TurnLog) (hb : build_turn_log_from_pending st = Except.ok (Option.some tl)) :
    (run_observer dec st).map (fun s => s.turns) = Except.ok (st.turns ++ [tl]) := by
  by_cases hlum : pyStrip st.last_user_message = ""
  · simp [run_observer, hb, hlum, Except.map]
  · simp [run_observer, hb, hlum, Except.map]

/-- Generalized induction for commitAll: committing K valid exchanges
onto a contiguous history extends it by K records and keeps it
contiguous. -/
theorem commitAll_contiguous_aux (ps : List PendingExchange) :
    ∀ turns : List TurnLog, contiguousIds turns →
      (∀ p ∈ ps, p.question ≠ "" ∧ pyStrip p.answer ≠ "" ∧
        ∃ pd, coerceTurnDifficulty p.pdiff = Except.ok pd) →
      ∃ turns', commitAll ps turns = Except.ok turns' ∧
        turns'.length = turns.length + ps.length ∧ contiguousIds turns' := by
  induction ps with
  | nil => intro turns hc _; exact ⟨turns, rfl, by simp, hc⟩
  | cons p rest ih =>
      intro turns hc hval
      obtain ⟨hq, ha, pd, hd⟩ := hval p (List.mem_cons_self p rest)
      have hb := build_turn_log_some (stateFor turns p) p.question rfl hq ha pd hd
      have hmap :=
        run_observer_turns { advance_topic := false, ask_deeper := false } (stateFor turns p) _ hb
      cases hrun : run_observer { advance_topic := false, ask_deeper := false }
          (stateFor turns p) with
      | error e =>
          rw [hrun] at hmap
          cases hmap
      | ok st' =>
          rw [hrun] at hmap
          simp only [Except.map] at hmap
          have hturns : st'.turns = (stateFor turns p).turns ++ [_] :=
            Except.ok.inj hmap
          have hnext : next_turn_id (stateFor turns p).turns = (turns.length : Int) + 1 := by
            simpa [stateFor] using next_turn_id_of_contiguous turns hc
          have hcv : contiguousIds st'.turns := by
            rw [hturns]
            show contiguousIds (turns ++ [_])
            apply contiguous_append turns _ hc
            simpa [stateFor] using hnext
          obtain ⟨turns', hca, hlen, hcont⟩ := ih st'.turns hcv
            (fun x hx => hval x (List.mem_cons_of_mem p hx))
          refine ⟨turns', ?_, ?_, hcont⟩
          · simp only [commitAll, hrun]
            exact hca
          · rw [hlen, hturns]
            simp [stateFor]
            omega

/-- C1: for every sequence of K completed question/answer exchanges,
the observer commit appends exactly one record per exchange, the id of
each new record is the previous maximum plus one starting at 1, and the
resulting history carries exactly the ids 1..K with no gaps. -/
theorem turn_ids_contiguous (ps : List PendingExchange)
    (h : ∀ p ∈ ps, p.question ≠ "" ∧ pyStrip p.answer ≠ "" ∧
      ∃ pd, coerceTurnDifficulty p.pdiff = Except.ok pd) :
    ∃ turns, commitAll ps [] = Except.ok turns ∧ turns.length = ps.length ∧
      turnIds turns = (List.range ps.length).map (fun n : Nat => (n : Int) + 1) := by
  obtain ⟨turns, hca, hlen, hcont⟩ :=
    commitAll_contiguous_aux ps [] (by simp [contiguousIds, turnIds, expectedIds]) h
  refine ⟨turns, hca, by simpa using hlen, ?_⟩
  have h2 := hcont
  unfold contiguousIds at h2
  rw [h2, hlen]
  simpa using expectedIds_eq_range ps.length

/-- C1 witness: two concrete exchanges produce the history with ids
1, 2. -/
theorem turn_ids_contiguous_witness :
    ∃ turns,
      commitAll
          [{ question := "Q1?", answer := "A1" }, { question := "Q2?", answer := "A2" }]
          [] = Except.ok turns ∧
      turns.length = 2 ∧
      turnIds turns = expectedIds 2 :=
  turn_ids_contiguous
    [{ question := "Q1?", answer := "A1" }, { question := "Q2?", answer := "A2" }]
    (by
      intro p hp
      rcases List.mem_cons.mp hp with rfl | hp2
      · exact ⟨by decide, by decide, Option.none, rfl⟩
      · rcases List.mem_cons.mp hp2 with rfl | hp3
        · exact ⟨by decide, by decide, Option.none, rfl⟩
        · cases hp3)

/-! ## C9: topic index is monotone and bounded -/

/-- Properties of the observer index update: monotone (under the bound),
capped at the plan length, advancing by at most one, and only on an
advance signal. -/
theorem observer_next_index_props (advance : Bool) (planned : List String) (idx : Int) :
    (idx ≤ (planned.length : Int) →
      (idx ≤ observer_next_index advance planned idx ∧
       observer_next_index advance planned idx ≤ (planned.length : Int) ∧
       observer_next_index advance planned idx ≤ idx + 1)) ∧
    (advance = false → observer_next_index advance planned idx = idx) := by
  unfold observer_next_index
  constructor
  · intro hle
    by_cases hc : advance = true ∧ planned ≠ []
    · rw [if_pos hc]
      exact ⟨le_min (by linarith) hle, min_le_right _ _, min_le_left _ _⟩
    · rw [if_neg hc]
      exact ⟨le_refl idx, hle, by linarith⟩
  · intro ha
    simp [ha]

/-- C9: the planner sets the topic index to 0 when it creates the plan,
and every observer step keeps the plan unchanged, never decreases the
index (while it is within the plan bound), never pushes it beyond the
plan length, advances it by at most one, and leaves it unchanged unless
the routing decision signals an advance. -/
theorem topic_index_monotone :
    (∀ (topics : List String) (st st' : GState),
      run_planner topics st = Except.ok st' → st.planned_topics = [] →
      st'.current_topic_index = 0) ∧
    (∀ (dec : ObserverRoutingDecision) (st st' : GState),
      run_observer dec st = Except.ok st' →
      st'.planned_topics = st.planned_topics ∧
      (st.current_topic_index ≤ (st.planned_topics.length : Int) →
        st.current_topic_index ≤ st'.current_topic_index ∧
        st'.current_topic_index ≤ (st.planned_topics.length : Int) ∧
        st'.current_topic_index ≤ st.current_topic_index + 1) ∧
      (dec.advance_topic = false → st'.current_topic_index = st.current_topic_index)) := by
  constructor
  · intro topics st st' hrun hpl
    unfold run_planner at hrun
    rw [hpl] at hrun
    simp only [ne_eq, not_true_eq_false, ite_false, if_neg] at hrun
    cases hv : validate_topics topics with
    | error e => rw [hv] at hrun; cases hrun
    | ok tps =>
        rw [hv] at hrun
        have hst := Except.ok.inj hrun
        rw [← hst]
  · intro dec st st' hrun
    unfold run_observer at hrun
    cases hb : build_turn_log_from_pending st with
    | error e => rw [hb] at hrun; cases hrun
    | ok tlOpt =>
        rw [hb] at hrun
        cases tlOpt with
        | none =>
            by_cases hlum : pyStrip st.last_user_message = ""
            · simp only [hlum, if_pos, ite_true] at hrun
              have hst := Except.ok.inj hrun
              rw [← hst]
              exact ⟨rfl, fun h => ⟨le_refl _, h, by linarith⟩, fun _ => rfl⟩
            · simp only [hlum, ite_false, if_neg] at hrun
              have hst := Except.ok.inj hrun
              rw [← hst]
              refine ⟨rfl, ?_, ?_⟩
              · intro hle
                exact (observer_next_index_props dec.advance_topic st.planned_topics
                  st.current_topic_index).1 hle
              · intro ha
                exact (observer_next_index_props dec.advance_topic st.planned_topics
                  st.current_topic_index).2 ha
        | some tl =>
            by_cases hlum : pyStrip st.last_user_message = ""
            · simp only [hlum, if_pos, ite_true] at hrun
              have hst := Except.ok.inj hrun
              rw [← hst]
              exact ⟨rfl, fun h => ⟨le_refl _, h, by linarith⟩, fun _ => rfl⟩
            · simp only [hlum, ite_false, if_neg] at hrun
              have hst := Except.ok.inj hrun
              rw [← hst]
              refine ⟨rfl, ?_, ?_⟩
              · intro hle
                exact (observer_next_index_props dec.advance_topic st.planned_topics
                  st.current_topic_index).1 hle
              · intro ha
                exact (observer_next_index_props dec.advance_topic st.planned_topics
                  st.current_topic_index).2 ha

/-- C9 witness: a planner run from an empty plan lands the index at 0,
and a non-advancing observer step leaves the index unchanged. -/
theorem topic_index_monotone_witness :
    (({ planned_topics := ["a","b","c","d","e","f","g","h","i","j"],
        current_topic_index := 0 } : GState).current_topic_index = 0) ∧
    (({} : GState).current_topic_index = ({} : GState).current_topic_index) :=
  ⟨topic_index_monotone.1 ["a","b","c","d","e","f","g","h","i","j"] {}
      { planned_topics := ["a","b","c","d","e","f","g","h","i","j"],
        current_topic_index := 0 } (by rfl) rfl,
   (topic_index_monotone.2 { advance_topic := false, ask_deeper := false } {} {} (by rfl)).2.2 rfl⟩

/-! ## C6: duplicate exhaustion and the fallback question -/

/-- The rewrite loop only consults the generator at the attempts it
makes. -/
theorem rewriteLoop_congr (asked covered : List String) :
    ∀ (remaining attempt : Nat) (gen gen2 : Nat → String),
      (∀ i, attempt ≤ i → i < attempt + remaining → gen2 i = gen i) →
      rewriteLoop gen2 asked covered remaining attempt =
        rewriteLoop gen asked covered remaining attempt := by
  intro remaining
  induction remaining with
  | zero => intro attempt gen gen2 _; rfl
  | succ rem ih =>
      intro attempt gen gen2 hag
      unfold rewriteLoop
      rw [hag attempt (le_refl _) (by omega)]
      by_cases hdup : is_duplicate (gen attempt) asked = true
      · simp only [hdup]
        simp only [not_true_eq_false, ite_false, Bool.not_true, if_neg]
        exact ih (attempt + 1) gen gen2 (fun i h1 h2 => hag i (by omega) (by omega))
      · simp only [Bool.not_eq_true] at hdup
        simp [hdup]

/-- When every attempt in the budget is a duplicate, the rewrite loop
ends in the fallback question. -/
theorem rewriteLoop_exhaust {gen : Nat → String} {asked covered : List String} :
    ∀ {remaining attempt : Nat},
      (∀ i, attempt ≤ i → i < attempt + remaining → is_duplicate (gen i) asked = true) →
      rewriteLoop gen asked covered remaining attempt = fallback_question covered := by
  intro remaining
  induction remaining with
  | zero => intro attempt _; rfl
  | succ rem ih =>
      intro attempt hall
      unfold rewriteLoop
      simp only [hall attempt (le_refl _) (by omega), not_true_eq_false, ite_false,
        Bool.not_true, if_neg]
      exact ih (fun i h1 h2 => hall i (by omega) (by omega))

/-- C6 counterexample: with every planned topic already covered the
claim demands the generic continuation prompt, but the code falls back
to the template of the first uncovered topic of its fixed internal
sequence, ignoring the session plan entirely. -/
theorem fallback_ignores_plan :
    generate_question (fun _ => "abc") ""
        ["abc"] ["T1","T2","T3","T4","T5","T6","T7","T8","T9","T10"] =
      fallback_question ["T1","T2","T3","T4","T5","T6","T7","T8","T9","T10"] ∧
    fallback_topic_claim ["T1","T2","T3","T4","T5","T6","T7","T8","T9","T10"]
        ["T1","T2","T3","T4","T5","T6","T7","T8","T9","T10"] = Option.none ∧
    fallback_question ["T1","T2","T3","T4","T5","T6","T7","T8","T9","T10"] =
      "What Python feature do you rely on most in day-to-day backend work, and why?" ∧
    "What Python feature do you rely on most in day-to-day backend work, and why?" ≠
      genericContinuation := by
  refine ⟨?_, ?_, ?_, ?_⟩
  · decide
  · decide
  · decide
  · decide

/-- C6 (amended): when the generated question is a duplicate the
generator is reissued at most MAX_REWRITE_ATTEMPTS (2) times; if every
retry is still a duplicate the result is the deterministic fallback
question (selected from the fixed internal topic sequence by covered
topics, not from the session plan), recovered locally rather than
raised; and the whole generation consults the generator only at call
indices 0..2. -/
theorem duplicate_exhaustion_fallback (gen gen2 : Nat → String) (lum : String)
    (asked covered : List String)
    (hc : is_repeat_complaint (pyStrip lum) = false)
    (h0 : is_duplicate (gen 0) asked = true)
    (h1 : is_duplicate (gen 1) asked = true)
    (h2 : is_duplicate (gen 2) asked = true) :
    generate_question gen lum asked covered = fallback_question covered ∧
    ((∀ i, i ≤ MAX_REWRITE_ATTEMPTS → gen2 i = gen i) →
      generate_question gen2 lum asked covered = generate_question gen lum asked covered) := by
  have hloop : rewriteLoop gen asked covered MAX_REWRITE_ATTEMPTS 1 =
      fallback_question covered := by
    apply rewriteLoop_exhaust
    intro i hi1 hi2
    unfold MAX_REWRITE_ATTEMPTS at hi2
    have : i = 1 ∨ i = 2 := by omega
    rcases this with rfl | rfl
    · exact h1
    · exact h2
  constructor
  · simp [generate_question, hc, h0, hloop]
  · intro hag
    simp only [generate_question, hc]
    rw [hag 0 (by norm_num)]
    by_cases hdup : is_duplicate (gen 0) asked = true
    · simp only [hdup, not_true_eq_false, ite_false, Bool.not_true, if_neg]
      exact rewriteLoop_congr asked covered MAX_REWRITE_ATTEMPTS 1 gen gen2
        (fun i hi1 hi2 => hag i (by unfold MAX_REWRITE_ATTEMPTS at hi2 ⊢; omega))
    · simp only [Bool.not_eq_true] at hdup
      simp [hdup]

/-- C6 witness: a generator that always repeats the single asked
question exhausts the budget and lands on the fallback question. -/
theorem duplicate_exhaustion_fallback_witness :
    generate_question (fun _ => "abc") "" ["abc"] ["python_basics"] =
      fallback_question ["python_basics"] :=
  (duplicate_exhaustion_fallback (fun _ => "abc") (fun _ => "abc") "" ["abc"]
    ["python_basics"] (by decide) (by decide) (by decide) (by decide)).1

/-! ## C5 support: the SequenceMatcher ratio of a string with itself -/

/-- The best-block fold of find_longest_match never decreases the best
size. -/
theorem flmFold_mono (i : Nat) (L : List (Nat × Nat)) :
    ∀ best : Nat × Nat × Nat,
      best.2.2 ≤ (L.foldl (fun acc p =>
        if p.2 > acc.2.2 then (i + 1 - p.2, p.1 + 1 - p.2, p.2) else acc) best).2.2 := by
  induction L with
  | nil => intro best; exact le_refl _
  | cons p rest ih =>
      intro best
      rw [List.foldl_cons]
      by_cases hp : p.2 > best.2.2
      · rw [if_pos hp]
        exact le_trans (le_of_lt hp)
          (ih (i + 1 - p.2, p.1 + 1 - p.2, p.2))
      · rw [if_neg hp]
        exact ih best

/-- Every entry size seen by the best-block fold is dominated by the
resulting best size. -/
theorem flmFold_reach (i : Nat) (L : List (Nat × Nat)) :
    ∀ (best : Nat × Nat × Nat) (jk : Nat × Nat), jk ∈ L →
      jk.2 ≤ (L.foldl (fun acc p =>
        if p.2 > acc.2.2 then (i + 1 - p.2, p.1 + 1 - p.2, p.2) else acc) best).2.2 := by
  induction L with
  | nil => intro best jk h; cases h
  | cons q rest ih =>
      intro best jk h
      rw [List.foldl_cons]
      rcases List.mem_cons.mp h with rfl | htail
      · by_cases hq : jk.2 > best.2.2
        · rw [if_pos hq]
          exact flmFold_mono i rest (i + 1 - jk.2, jk.1 + 1 - jk.2, jk.2)
        · rw [if_neg hq]
          exact le_trans (Nat.le_of_not_lt hq) (flmFold_mono i rest best)
      · exact ih _ jk htail

/-- Positional value of zipWith from positional values of the inputs. -/
theorem get?_zipWith {α β γ : Type} (f : α → β → γ) :
    ∀ (a : List α) (b : List β) (j : Nat) (av : α) (bv : β),
      a.get? j = Option.some av → b.get? j = Option.some bv →
      (List.zipWith f a b).get? j = Option.some (f av bv) := by
  intro a
  induction a with
  | nil => intro b j av bv ha _; simp at ha
  | cons x xs ih =>
      intro b j av bv ha hb
      cases b with
      | nil => simp at hb
      | cons y ys =>
          cases j with
          | zero =>
              simp only [List.get?] at ha hb
              cases ha
              cases hb
              rfl
          | succ j' =>
              simpa using ih ys j' av bv (by simpa using ha) (by simpa using hb)

/-- A positional value yields membership in the enumeration. -/
theorem get?_mem_enumFrom {α : Type} :
    ∀ (l : List α) (s j : Nat) (x : α), l.get? j = Option.some x →
      (s + j, x) ∈ l.enumFrom s := by
  intro l
  induction l with
  | nil => intro s j x h; simp at h
  | cons y ys ih =>
      intro s j x h
      cases j with
      | zero =>
          simp only [List.get?] at h
          cases h
          simp [List.enumFrom]
      | succ j' =>
          have := ih (s + 1) j' x (by simpa using h)
          rw [List.enumFrom]
          apply List.mem_cons_of_mem
          have harith : s + 1 + j' = s + (j' + 1) := by omega
          rwa [harith] at this

/-- A positional value yields membership in enum. -/
theorem get?_mem_enum {α : Type} (l : List α) (j : Nat) (x : α)
    (h : l.get? j = Option.some x) : (j, x) ∈ l.enum := by
  simpa using get?_mem_enumFrom l 0 j x h

/-- During the self-match scan, once the diagonal of the previous row
carries value i, the final best size covers the whole string. -/
theorem flmGo_ge (b : List Char) :
    ∀ (suffix : List Char) (i : Nat) (prev : List Nat) (best : Nat × Nat × Nat),
      suffix = b.drop i → prev.length = b.length → i < b.length →
      (i = 0 ∨ prev.get? (i - 1) = Option.some i) →
      b.length ≤ (flmGo b suffix i prev best).2.2 := by
  intro suffix
  induction suffix with
  | nil =>
      intro i prev best hsuf hlen hi _
      exfalso
      have : b.drop i ≠ [] := by
        simp [List.drop_eq_nil_iff_le]
        omega
      exact this hsuf.symm
  | cons ai arest ih =>
      intro i prev best hsuf hlen hi hdiag
      have hbi : b.get? i = Option.some ai := by
        have hdrop := List.get?_drop b i 0
        rw [← hsuf] at hdrop
        simpa using hdrop.symm
      have hq : (0 :: prev).get? i = Option.some i := by
        cases i with
        | zero => rfl
        | succ i' =>
            rcases hdiag with h0 | hd
            · cases h0
            · simpa using hd
      have hrlen : (fmRow ai b prev).length = b.length := by
        unfold fmRow
        rw [List.length_zipWith]
        simp [hlen]
      have hrdiag : (fmRow ai b prev).get? i = Option.some (i + 1) := by
        unfold fmRow
        have := get?_zipWith (fun bj pj => if bj = ai then pj + 1 else 0)
          b (0 :: prev) i ai i hbi hq
        simpa using this
      have harest : arest = b.drop (i + 1) := by
        have := List.tail_drop b i
        rw [← hsuf] at this
        simpa using this
      rcases Nat.lt_or_ge (i + 1) b.length with hlt | hge
      · show b.length ≤ (flmGo b (ai :: arest) i prev best).2.2
        unfold flmGo
        exact ih (i + 1) (fmRow ai b prev) _ harest hrlen hlt
          (Or.inr (by simpa using hrdiag))
      · have hn : i + 1 = b.length := by omega
        have hareq : arest = [] := by
          rw [harest, List.drop_eq_nil_of_le (by omega)]
        subst hareq
        show b.length ≤ (flmGo b [ai] i prev best).2.2
        unfold flmGo
        unfold flmGo
        have hmem : (i, i + 1) ∈ (fmRow ai b prev).enum :=
          get?_mem_enum _ i (i + 1) hrdiag
        have := flmFold_reach i (fmRow ai b prev).enum best (i, i + 1) hmem
        simpa [hn] using this

/-- find_longest_match on a non-empty string against itself finds a
block covering the whole string. -/
theorem find_longest_match_self (l : List Char) (h : l ≠ []) :
    l.length ≤ (find_longest_match l l).2.2 := by
  unfold find_longest_match
  exact flmGo_ge l l 0 (List.replicate l.length 0) (0, 0, 0)
    (by simp) (by simp) (List.length_pos.mpr h) (Or.inl rfl)

/-- The matched total of a non-empty string against itself covers the
whole string. -/
theorem matchSum_self (l : List Char) (h : l ≠ []) (fuel : Nat) (hf : 1 ≤ fuel) :
    l.length ≤ matchSum fuel l l := by
  cases fuel with
  | zero => omega
  | succ f =>
      have hk := find_longest_match_self l h
      have hk0 : (find_longest_match l l).2.2 ≠ 0 := by
        intro hz
        rw [hz] at hk
        exact h (List.length_eq_zero.mp (by omega))
      unfold matchSum
      simp only [hk0, ite_false, if_neg]
      omega

/-- The SequenceMatcher ratio of a non-empty string with itself is at
least 1. -/
theorem sm_ratio_self (a : String) (h : a ≠ "") : 1 ≤ sm_ratio a a := by
  have hdata : a.data ≠ [] := by
    intro hz
    apply h
    cases a with
    | mk data => rw [show data = [] from hz]
  have hlen : 1 ≤ a.data.length := List.length_pos.mpr hdata
  unfold sm_ratio
  rw [if_neg (by omega)]
  rw [le_div_iff (by positivity)]
  have hm := matchSum_self a.data hdata (a.data.length + a.data.length) (by omega)
  have hc : (a.data.length : ℚ) ≤
      (matchSum (a.data.length + a.data.length) a.data a.data : ℚ) := by
    exact_mod_cast hm
  push_cast
  linarith

/-- The code-level similarity of a non-empty normalized string with
itself reaches the duplicate threshold. -/
theorem similarity_ratio_self (a : String) (h : a ≠ "") :
    SIMILARITY_THRESHOLD ≤ similarity_ratio a a := by
  unfold similarity_ratio
  rw [if_neg (by simp [h])]
  calc SIMILARITY_THRESHOLD ≤ 1 := by norm_num [SIMILARITY_THRESHOLD]
    _ ≤ sm_ratio a a := sm_ratio_self a h

/-! ## C5 support: normalization absorbs the outer strip -/

/-- The step equation of the whitespace collapse. -/
theorem collapseWsGo_cons (b : Bool) (c : Char) (l : List Char) :
    collapseWsGo b (c :: l) =
      if isPyWs c then
        (if b then collapseWsGo true l else ' ' :: collapseWsGo true l)
      else c :: collapseWsGo false l := by
  cases b <;> rfl

/-- Collapsing in whitespace-pending mode ignores a leading whitespace
run. -/
theorem collapse_true_absorb (w : List Char) (hw : ∀ c ∈ w, isPyWs c = true) :
    ∀ x : List Char, collapseWsGo true (w ++ x) = collapseWsGo true x := by
  induction w with
  | nil => intro x; rfl
  | cons c w ih =>
      intro x
      rw [List.cons_append, collapseWsGo_cons,
        if_pos (hw c (List.mem_cons_self c w)), if_pos rfl]
      exact ih (fun d hd => hw d (List.mem_cons_of_mem c hd)) x

/-- The two collapsing modes differ by at most one leading space. -/
theorem collapse_false_cases (x : List Char) :
    collapseWsGo false x = collapseWsGo true x ∨
    collapseWsGo false x = ' ' :: collapseWsGo true x := by
  cases x with
  | nil => exact Or.inl rfl
  | cons c rest =>
      by_cases hc : isPyWs c = true
      · right
        rw [collapseWsGo_cons, collapseWsGo_cons, if_pos hc, if_pos hc, if_pos rfl]
        rw [if_neg (by exact Bool.false_ne_true)]
      · left
        rw [collapseWsGo_cons, collapseWsGo_cons, if_neg hc, if_neg hc]

/-- After the leading strip the collapsing mode is irrelevant. -/
theorem dropWs_collapse_mode (x : List Char) :
    (collapseWsGo false x).dropWhile isPyWs = (collapseWsGo true x).dropWhile isPyWs := by
  rcases collapse_false_cases x with h | h
  · rw [h]
  · rw [h, List.dropWhile_cons]
    rw [if_pos (by decide)]

/-- Stripping the collapsed text absorbs a leading whitespace run of the
input. -/
theorem dropWs_collapse_absorb (w : List Char) (hw : ∀ c ∈ w, isPyWs c = true)
    (x : List Char) :
    (collapseWsGo false (w ++ x)).dropWhile isPyWs =
    (collapseWsGo false x).dropWhile isPyWs := by
  cases w with
  | nil => rfl
  | cons c w =>
      have hx : collapseWsGo false (c :: (w ++ x)) = ' ' :: collapseWsGo true x := by
        rw [collapseWsGo_cons, if_pos (hw c (List.mem_cons_self c w))]
        rw [if_neg (by exact Bool.false_ne_true)]
        rw [collapse_true_absorb w (fun d hd => hw d (List.mem_cons_of_mem c hd)) x]
      show (collapseWsGo false (c :: (w ++ x))).dropWhile isPyWs = _
      rw [hx, List.dropWhile_cons, if_pos (by decide), dropWs_collapse_mode]

/-- One step of the right strip. -/
theorem rstripWs_cons (c : Char) (l : List Char) :
    rstripWs (c :: l) =
      if rstripWs l = [] then (if isPyWs c then [] else [c]) else c :: rstripWs l := by
  unfold rstripWs
  rw [List.reverse_cons, List.dropWhile_append]
  by_cases h : (l.reverse.dropWhile isPyWs).isEmpty = true
  · rw [if_pos h]
    have hnil : (l.reverse.dropWhile isPyWs).reverse = [] := by
      rw [List.isEmpty_iff] at h
      rw [h, List.reverse_nil]
    rw [if_pos hnil]
    by_cases hc : isPyWs c = true
    · rw [if_pos hc]
      show ([c].dropWhile isPyWs).reverse = []
      rw [List.dropWhile_cons, if_pos hc]
      rfl
    · rw [if_neg hc]
      show ([c].dropWhile isPyWs).reverse = [c]
      rw [List.dropWhile_cons, if_neg hc]
      rfl
  · rw [if_neg h]
    have hne : ¬ (l.reverse.dropWhile isPyWs).reverse = [] := by
      rw [List.isEmpty_iff] at h
      simp [h]
    rw [if_neg hne, List.reverse_append]
    rfl

/-- Right-stripping two lists with equal right strips stays equal after
a common head. -/
theorem rstripWs_cons_congr (c : Char) (A B : List Char)
    (h : rstripWs A = rstripWs B) : rstripWs (c :: A) = rstripWs (c :: B) := by
  rw [rstripWs_cons, rstripWs_cons, h]

/-- An all-whitespace list right-strips to nothing. -/
theorem rstripWs_allWs (w : List Char) (hw : ∀ c ∈ w, isPyWs c = true) :
    rstripWs w = [] := by
  induction w with
  | nil => rfl
  | cons c w ih =>
      rw [rstripWs_cons, ih (fun d hd => hw d (List.mem_cons_of_mem c hd))]
      rw [if_pos rfl, if_pos (hw c (List.mem_cons_self c w))]

/-- Collapsing an all-whitespace list right-strips to nothing. -/
theorem rstripWs_collapse_allWs (w : List Char) (hw : ∀ c ∈ w, isPyWs c = true)
    (b : Bool) : rstripWs (collapseWsGo b w) = [] := by
  cases b with
  | true =>
      have := collapse_true_absorb w hw []
      rw [List.append_nil] at this
      rw [this]
      rfl
  | false =>
      have htrue : collapseWsGo true w = [] := by
        have := collapse_true_absorb w hw []
        rwa [List.append_nil] at this
      rcases collapse_false_cases w with h | h
      · rw [h, htrue]
        rfl
      · rw [h, htrue]
        rfl

/-- Right-stripping the collapsed text absorbs a trailing whitespace run
of the input. -/
theorem rstrip_collapse_absorb (w : List Char) (hw : ∀ c ∈ w, isPyWs c = true) :
    ∀ (x : List Char) (b : Bool),
      rstripWs (collapseWsGo b (x ++ w)) = rstripWs (collapseWsGo b x) := by
  intro x
  induction x with
  | nil =>
      intro b
      show rstripWs (collapseWsGo b w) = rstripWs (collapseWsGo b [])
      rw [rstripWs_collapse_allWs w hw b]
      cases b <;> rfl
  | cons c x ih =>
      intro b
      by_cases hc : isPyWs c = true
      · cases b with
        | true =>
            rw [List.cons_append, collapseWsGo_cons, collapseWsGo_cons]
            rw [if_pos hc, if_pos hc, if_pos rfl, if_pos rfl]
            exact ih true
        | false =>
            rw [List.cons_append, collapseWsGo_cons, collapseWsGo_cons]
            rw [if_pos hc, if_pos hc]
            rw [if_neg (by exact Bool.false_ne_true), if_neg (by exact Bool.false_ne_true)]
            exact rstripWs_cons_congr ' ' _ _ (ih true)
      · rw [List.cons_append, collapseWsGo_cons, collapseWsGo_cons]
        rw [if_neg hc, if_neg hc]
        exact rstripWs_cons_congr c _ _ (ih false)

/-- The leading strip and the right strip commute. -/
theorem dropWs_rstripWs_comm (cs : List Char) :
    (rstripWs cs).dropWhile isPyWs = rstripWs (cs.dropWhile isPyWs) := by
  induction cs with
  | nil => rfl
  | cons c t ih =>
      by_cases hc : isPyWs c = true
      · rw [List.dropWhile_cons, if_pos hc, ← ih, rstripWs_cons]
        by_cases hnil : rstripWs t = []
        · rw [if_pos hnil, if_pos hc, hnil]
        · rw [if_neg hnil, List.dropWhile_cons, if_pos hc]
      · rw [List.dropWhile_cons, if_neg hc, rstripWs_cons]
        by_cases hnil : rstripWs t = []
        · rw [if_pos hnil, if_neg hc, List.dropWhile_cons, if_neg hc]
        · rw [if_neg hnil, List.dropWhile_cons, if_neg hc]

/-- pyStripChars is right strip after leading strip. -/
theorem pyStripChars_eq (cs : List Char) :
    pyStripChars cs = rstripWs (cs.dropWhile isPyWs) := rfl

/-- The full strip of the collapsed text absorbs whitespace runs at both
ends of the input. -/
theorem pyStripChars_collapse_absorb (w1 w2 x : List Char)
    (h1 : ∀ c ∈ w1, isPyWs c = true) (h2 : ∀ c ∈ w2, isPyWs c = true) :
    pyStripChars (collapseWsGo false (w1 ++ (x ++ w2))) =
    pyStripChars (collapseWsGo false x) := by
  rw [pyStripChars_eq, pyStripChars_eq]
  rw [dropWs_collapse_absorb w1 h1 (x ++ w2)]
  rw [← dropWs_rstripWs_comm, ← dropWs_rstripWs_comm]
  rw [rstrip_collapse_absorb w2 h2 x false]

/-- The character map of normalize_text fixes whitespace. -/
theorem normChar_ws (c : Char) (hc : isPyWs c = true) :
    (if inNormClass (pyLowerChar c) then pyLowerChar c else ' ') = c := by
  have hcs : ((((c = ' ' ∨ c = '\t') ∨ c = '\n') ∨ c = '\r') ∨ c = '\x0b') ∨ c = '\x0c' := by
    simpa [isPyWs] using hc
  rcases hcs with ((((rfl | rfl) | rfl) | rfl) | rfl) | rfl <;> decide

/-- Mapping the normalize_text character map over an all-whitespace list
is the identity. -/
theorem normMap_ws (w : List Char) (hw : ∀ c ∈ w, isPyWs c = true) :
    w.map (fun c => if inNormClass (pyLowerChar c) then pyLowerChar c else ' ') = w := by
  induction w with
  | nil => rfl
  | cons c w ih =>
      rw [List.map_cons, normChar_ws c (hw c (List.mem_cons_self c w))]
      rw [ih (fun d hd => hw d (List.mem_cons_of_mem c hd))]

/-- Normalization is insensitive to the outer strip of its input: the
normalized text of a stripped question equals that of the raw question. -/
theorem normalize_text_pyStrip (q : String) :
    normalize_text (pyStrip q) = normalize_text q := by
  have hmap : ∀ t : String, normalize_text t = String.mk (pyStripChars (collapseWsGo false
      (t.data.map (fun c => if inNormClass (pyLowerChar c) then pyLowerChar c else ' ')))) := by
    intro t
    show String.mk (pyStripChars (collapseWsGo false
      ((t.data.map pyLowerChar).map (fun c => if inNormClass c then c else ' ')))) = _
    rw [List.map_map]
    rfl
  rw [hmap, hmap]
  have hdata : (pyStrip q).data = pyStripChars q.data := rfl
  rw [hdata]
  set cs := q.data with hcs
  have hsplit1 : cs = cs.takeWhile isPyWs ++ cs.dropWhile isPyWs :=
    (List.takeWhile_append_dropWhile isPyWs cs).symm
  set u := cs.dropWhile isPyWs with hu
  have hsplit2 : u = rstripWs u ++ ((u.reverse.takeWhile isPyWs)).reverse := by
    have : u.reverse = u.reverse.takeWhile isPyWs ++ u.reverse.dropWhile isPyWs :=
      (List.takeWhile_append_dropWhile isPyWs u.reverse).symm
    calc u = u.reverse.reverse := (List.reverse_reverse u).symm
      _ = (u.reverse.takeWhile isPyWs ++ u.reverse.dropWhile isPyWs).reverse := by
            rw [← this]
      _ = rstripWs u ++ (u.reverse.takeWhile isPyWs).reverse := by
            rw [List.reverse_append]
            rfl
  have hstrip : pyStripChars cs = rstripWs u := by rw [pyStripChars_eq]
  have hw1 : ∀ c ∈ cs.takeWhile isPyWs, isPyWs c = true :=
    fun c hc => List.mem_takeWhile_imp hc
  have hw2 : ∀ c ∈ (u.reverse.takeWhile isPyWs).reverse, isPyWs c = true := by
    intro c hc
    exact List.mem_takeWhile_imp (List.mem_reverse.mp hc)
  have hmapu : u.map (fun c => if inNormClass (pyLowerChar c) then pyLowerChar c else ' ') =
      (pyStripChars cs).map
        (fun c => if inNormClass (pyLowerChar c) then pyLowerChar c else ' ') ++
        (u.reverse.takeWhile isPyWs).reverse := by
    conv_lhs => rw [hsplit2]
    rw [List.map_append, normMap_ws _ hw2, ← hstrip]
  have hdecomp : cs.map (fun c => if inNormClass (pyLowerChar c) then pyLowerChar c else ' ') =
      cs.takeWhile isPyWs ++
      ((pyStripChars cs).map
        (fun c => if inNormClass (pyLowerChar c) then pyLowerChar c else ' ') ++
        (u.reverse.takeWhile isPyWs).reverse) := by
    conv_lhs => rw [hsplit1]
    rw [List.map_append, normMap_ws _ hw1, hmapu]
  rw [hdecomp]
  rw [pyStripChars_collapse_absorb _ _ _ hw1 hw2]

/-- C5 (amended): the deduplicated path does keep the asked-questions
set pairwise dissimilar: committing a question that passed the duplicate
check (is_duplicate = false) preserves the invariant that no entry has
normalized similarity at or above 0.85 with an earlier one, because the
normalization applied by the check absorbs the strip applied on commit.
The fallback path, which bypasses the check, breaks the invariant (see
the counterexample). -/
theorem asked_questions_pairwise_dissimilar (asked : List String) (q : String)
    (hinv : askedInvariant asked) (hdup : is_duplicate q asked = false) :
    askedInvariant (update_asked_questions asked q) := by
  unfold askedInvariant at hinv ⊢
  have hred : update_asked_questions asked q =
      if pyStrip q ≠ "" ∧ ¬ (asked.filter (fun item => item ≠ "")).contains (pyStrip q)
      then asked.filter (fun item => item ≠ "") ++ [pyStrip q]
      else asked.filter (fun item => item ≠ "") := rfl
  rw [hred]
  have hfilter := List.Pairwise.sublist
    (@List.filter_sublist String (fun item => item ≠ "") asked) hinv
  by_cases hcond : pyStrip q ≠ "" ∧
      ¬ (asked.filter (fun item => item ≠ "")).contains (pyStrip q)
  · rw [if_pos hcond]
    rw [List.pairwise_append]
    refine ⟨hfilter, by simp, ?_⟩
    intro a ha b hb
    have hb1 : b = pyStrip q := by simpa using hb
    subst hb1
    show similarity_ratio (normalize_text (pyStrip q)) (normalize_text a) <
      SIMILARITY_THRESHOLD
    rw [normalize_text_pyStrip q]
    by_cases hnc : normalize_text q = ""
    · rw [hnc]
      unfold similarity_ratio
      rw [if_pos (Or.inl rfl)]
      norm_num [SIMILARITY_THRESHOLD]
    · simp only [is_duplicate, if_neg hnc] at hdup
      rw [List.any_eq_false] at hdup
      have ha1 : a ∈ asked := List.mem_of_mem_filter ha
      have := hdup a ha1
      simp only [decide_eq_true_eq] at this
      exact not_le.mp this
  · rw [if_neg hcond]
    exact hfilter

/-- Witness for C5: committing a fresh question on an empty set keeps
the invariant. -/
theorem asked_questions_pairwise_dissimilar_witness :
    askedInvariant ([] : List String) ∧
    is_duplicate "Explain decorators" [] = false ∧
    askedInvariant (update_asked_questions [] "Explain decorators") :=
  ⟨(by unfold askedInvariant; exact List.Pairwise.nil),
   (by rfl),
   asked_questions_pairwise_dissimilar [] "Explain decorators"
     (by unfold askedInvariant; exact List.Pairwise.nil) (by rfl)⟩

/-- Counterexample for C5: a two-invocation run in which the generator
always proposes the async fallback template minus its question mark and
the second user message is a repeat complaint. The repeat-complaint
branch returns the fixed async fallback template without any duplicate
check, so the asked-questions set ends holding two questions whose
normalized similarity is 1, far above the 0.85 bound the claim asserts
for every reachable state. -/
theorem fallback_breaks_asked_invariant :
    ((graphInvoke c5Oracles 9 {}).bind
      (fun st1 => graphInvoke c5Oracles 9
        { st1 with last_user_message := "please repeat" })).map
      (fun st => st.asked_questions) =
      Except.ok [c5FirstQuestion, c5FallbackQuestion] ∧
    ¬ askedInvariant [c5FirstQuestion, c5FallbackQuestion] := by
  constructor
  · rfl
  · intro h
    unfold askedInvariant at h
    have hR := (List.pairwise_cons.mp h).1 c5FallbackQuestion
      (List.mem_cons_self _ _)
    have hnorm : normalize_text c5FallbackQuestion = normalize_text c5FirstQuestion := by
      rfl
    have hne : normalize_text c5FallbackQuestion ≠ "" := by decide
    have hge := similarity_ratio_self (normalize_text c5FallbackQuestion) hne
    rw [hnorm] at hR hge
    exact absurd hR (not_lt.mpr hge)

/-- C8: the two-invocation session behaves as claimed only when the
difficulty slot was never initialized. With the initialization the
scenario runner actually performs (the string MEDIUM), the first
invocation does yield one question and zero turn records, but the
second invocation aborts with a pydantic ValidationError while
committing the first turn record, because TurnLog coerces the pending
difficulty MEDIUM to int and fails; no turn record with turn_id 1 is
ever produced. With the CLI initialization (the integer 3) the second
invocation aborts in the difficulty node with an AttributeError. Only a
session whose difficulty slot is absent satisfies the claimed
one-record outcome with turn_id 1. -/
theorem turn_commit_fails_under_initial_difficulty :
    (graphInvoke c8Oracles 9 { difficulty := Option.some (DiffVal.str "MEDIUM") }).map
      (fun st => (st.turns.length, st.last_interviewer_message)) =
      Except.ok (0, "Question 1?") ∧
    ((graphInvoke c8Oracles 9 { difficulty := Option.some (DiffVal.str "MEDIUM") }).bind
      (fun st1 => graphInvoke c8Oracles 9 { st1 with last_user_message := c8Answer })) =
      Except.error "ValidationError: difficulty is not an int" ∧
    ((graphInvoke c8Oracles 9 { difficulty := Option.some (DiffVal.int 3) }).bind
      (fun st1 => graphInvoke c8Oracles 9 { st1 with last_user_message := c8Answer })) =
      Except.error "AttributeError: int object has no attribute strip" ∧
    ((graphInvoke c8Oracles 9 {}).bind
      (fun st1 => graphInvoke c8Oracles 9 { st1 with last_user_message := c8Answer })).map
      (fun st => turnIds st.turns) = Except.ok [1] :=
  ⟨rfl, rfl, rfl, rfl⟩

end InterviewCoach
